import Mathlib

/-!
Verification of the incremental analysis engine of `oetiker/response-analyzer`.

This file shallowly embeds the Go source of the repository into Lean 4:

* `pkg/analysis` (the analyzer: change detection, serial and parallel
  matching dispatch, aggregation, summary generation and reuse),
* `pkg/claude` (the LLM client: prompt construction, batch parsing,
  retry/backoff, cost accounting),
* `pkg/cache` (the completion cache).

Modelling conventions used throughout:

* Go `map[string]V` is modelled as an association list `List (String × V)`
  together with `mlookup` / `minsert`; `minsert` replaces an existing
  binding in place, so lists built by `minsert` have pairwise-distinct
  keys, exactly like a Go map.  Go's nondeterministic map-iteration order
  is modelled by the list order; every theorem below that could be
  affected by iteration order is stated in an order-insensitive way.
* `time.Time` values are modelled as `Nat` clock readings passed in
  explicitly (`now`); `time.Duration` is a `Nat` number of delay units.
* Concurrency in `MatchResponsesToThemesParallel` is modelled by an
  explicit completion schedule `sched : List Nat`, a permutation of the
  batch indices: workers publish their results and errors in schedule
  order.  Theorems about the parallel path quantify over the schedule.
* The HTTP transport of `GetCompletion` is modelled as a list of
  `ApiResponse`s consumed one per request; `float64` cost arithmetic is
  modelled by exact rationals.
* Byte-level string slicing (Go `len(s)`, `s[:497]`) is modelled on
  characters; none of the proved claims depends on the distinction.
-/

set_option maxHeartbeats 1000000
set_option maxRecDepth 4096

/-! ## Association-list model of Go string-keyed maps -/

/-- Lookup in the association-list model of a Go `map[string]V`. -/
def mlookup (k : String) : List (String × α) → Option α
  | [] => none
  | p :: rest => if p.1 = k then some p.2 else mlookup k rest

/-- Insertion (`m[k] = v`) in the association-list model of a Go map:
replaces an existing binding in place, otherwise appends. -/
def minsert (k : String) (v : α) : List (String × α) → List (String × α)
  | [] => [(k, v)]
  | p :: rest => if p.1 = k then (k, v) :: rest else p :: minsert k v rest

theorem mlookup_minsert_self (k : String) (v : α) (m : List (String × α)) :
    mlookup k (minsert k v m) = some v := by
  induction m with
  | nil => simp [minsert, mlookup]
  | cons p rest ih =>
    by_cases h : p.1 = k
    · simp [minsert, h, mlookup]
    · simp [minsert, h, mlookup, ih]

theorem mlookup_minsert_ne (k k' : String) (v : α) (m : List (String × α))
    (h : k' ≠ k) : mlookup k (minsert k' v m) = mlookup k m := by
  induction m with
  | nil => simp [minsert, mlookup, h]
  | cons p rest ih =>
    by_cases hp : p.1 = k'
    · have hpk : ¬ p.1 = k := by rw [hp]; exact h
      simp [minsert, hp, mlookup, h, hpk]
    · by_cases hk : p.1 = k
      · simp only [minsert, if_neg hp, mlookup, if_pos hk]
      · simp only [minsert, if_neg hp, mlookup, if_neg hk]
        exact ih

theorem mlookup_minsert (k k' : String) (v : α) (m : List (String × α)) :
    mlookup k (minsert k' v m) = if k' = k then some v else mlookup k m := by
  by_cases h : k' = k
  · subst h; simp [mlookup_minsert_self]
  · simp [h, mlookup_minsert_ne _ _ _ _ h]

theorem mlookup_append (k : String) (l₁ l₂ : List (String × α)) :
    mlookup k (l₁ ++ l₂)
      = match mlookup k l₁ with
        | some v => some v
        | none => mlookup k l₂ := by
  induction l₁ with
  | nil => simp [mlookup]
  | cons p rest ih =>
    by_cases h : p.1 = k
    · simp [mlookup, h]
    · simp [mlookup, h, ih]

theorem mlookup_eq_none_iff (k : String) (l : List (String × α)) :
    mlookup k l = none ↔ k ∉ l.map Prod.fst := by
  induction l with
  | nil => simp [mlookup]
  | cons p rest ih =>
    by_cases h : p.1 = k
    · simp [mlookup, h]
    · have hk : ¬ k = p.1 := fun hh => h hh.symm
      simp [mlookup, h, ih, hk]

theorem mem_of_mlookup_eq_some {k : String} {v : α} {l : List (String × α)}
    (h : mlookup k l = some v) : (k, v) ∈ l := by
  induction l with
  | nil => simp [mlookup] at h
  | cons p rest ih =>
    rw [show mlookup k (p :: rest) = if p.1 = k then some p.2 else mlookup k rest
      from rfl] at h
    by_cases hp : p.1 = k
    · rw [if_pos hp] at h
      obtain ⟨a, b⟩ := p
      injection h with h2
      simp only at hp
      subst hp; subst h2
      exact List.mem_cons_self _ _
    · rw [if_neg hp] at h
      exact List.mem_cons_of_mem _ (ih h)

theorem mlookup_eq_some_of_mem {k : String} {v : α} {l : List (String × α)}
    (hnd : (l.map Prod.fst).Nodup) (h : (k, v) ∈ l) : mlookup k l = some v := by
  induction l with
  | nil => simp at h
  | cons p rest ih =>
    rw [List.map_cons, List.nodup_cons] at hnd
    obtain ⟨hnotin, hnd2⟩ := hnd
    rcases List.mem_cons.1 h with h | h
    · rw [← h]; simp [mlookup]
    · have hne : ¬ p.1 = k := by
        intro he
        apply hnotin
        rw [he]
        exact List.mem_map_of_mem Prod.fst h
      simp only [mlookup, hne, if_false]
      exact ih hnd2 h

/-- Under distinct keys, `mlookup` is invariant under permutation. -/
theorem mlookup_perm {l₁ l₂ : List (String × α)} (hp : l₁.Perm l₂)
    (hnd : (l₁.map Prod.fst).Nodup) (k : String) :
    mlookup k l₁ = mlookup k l₂ := by
  have hnd₂ : (l₂.map Prod.fst).Nodup := ((hp.map Prod.fst).nodup_iff).1 hnd
  cases h : mlookup k l₁ with
  | none =>
    rw [mlookup_eq_none_iff] at h
    have : k ∉ l₂.map Prod.fst := fun hm => h ((hp.map Prod.fst).mem_iff.2 hm)
    exact ((mlookup_eq_none_iff k l₂).2 this).symm
  | some v =>
    have hm : (k, v) ∈ l₂ := hp.mem_iff.1 (mem_of_mlookup_eq_some h)
    exact (mlookup_eq_some_of_mem hnd₂ hm).symm

/-- Folding `minsert` over a list of pairs: the last binding of `k` in the
pair list wins, otherwise the accumulator is consulted. -/
theorem mlookup_foldl_minsert (k : String) (pairs acc : List (String × α)) :
    mlookup k (pairs.foldl (fun m p => minsert p.1 p.2 m) acc)
      = match mlookup k pairs.reverse with
        | some v => some v
        | none => mlookup k acc := by
  induction pairs generalizing acc with
  | nil => simp [mlookup]
  | cons p rest ih =>
    rw [List.foldl_cons, ih]
    have : (p :: rest).reverse = rest.reverse ++ [p] := by simp
    rw [this, mlookup_append]
    cases hr : mlookup k rest.reverse with
    | some v => simp
    | none =>
      simp only []
      rw [mlookup_minsert]
      by_cases h : p.1 = k
      · simp [mlookup, h]
      · simp [mlookup, h]

/-- Keys of a `minsert`-built map. -/
theorem minsert_keys (k : String) (v : α) (m : List (String × α)) :
    ((minsert k v m).map Prod.fst) =
      if k ∈ m.map Prod.fst then m.map Prod.fst else m.map Prod.fst ++ [k] := by
  induction m with
  | nil => simp [minsert]
  | cons p rest ih =>
    by_cases h : p.1 = k
    · simp [minsert, h]
    · have hk : ¬ k = p.1 := fun hh => h hh.symm
      by_cases hm : k ∈ rest.map Prod.fst
      · simp [minsert, h, ih, hm, hk]
      · simp [minsert, h, ih, hm, hk]

theorem foldl_minsert_nodup_keys (pairs acc : List (String × α))
    (hacc : (acc.map Prod.fst).Nodup) :
    (((pairs.foldl (fun m p => minsert p.1 p.2 m) acc)).map Prod.fst).Nodup := by
  induction pairs generalizing acc with
  | nil => simpa using hacc
  | cons p rest ih =>
    rw [List.foldl_cons]
    apply ih
    rw [minsert_keys]
    by_cases hm : p.1 ∈ acc.map Prod.fst
    · simpa [hm] using hacc
    · simp only [hm, if_false]
      rw [List.nodup_append]
      refine ⟨hacc, List.nodup_singleton _, ?_⟩
      intro a ha hb
      rw [List.mem_singleton] at hb
      subst hb
      exact hm ha

/-! ## Data model

`excel.Response` is produced by the spreadsheet-ingestion package, which is
not part of the analyzed source tree; its fields follow spec §3
(`id`, `text`, `rowPosition`, `contentHash`).  The analyzer reads only
`ID`, `Text` and `Hash`. -/

/-- A survey response record (`excel.Response`). -/
structure Response where
  ID : String
  Text : String
  Row : Nat
  Hash : String
deriving DecidableEq, Repr

/-- `analysis.ResponseAnalysis`: the analysis of one response. -/
structure ResponseAnalysis where
  Response : Response
  Themes : List String
  Analyzed : Nat
deriving DecidableEq, Repr

/-- `analysis.ThemeAnalysis`: the responses matched to one theme. -/
structure ThemeAnalysis where
  Theme : String
  Responses : List String
deriving DecidableEq, Repr

/-- `claude.ThemeSummary`: summary text and unique ideas for one theme. -/
structure ThemeSummary where
  Summary : String
  UniqueIdeas : List String
deriving DecidableEq, Repr

/-- `analysis.AnalysisResult`: the aggregate result of one run. -/
structure AnalysisResult where
  Themes : List String
  ResponseAnalyses : List (String × ResponseAnalysis)
  ThemeAnalyses : List (String × ThemeAnalysis)
  ThemeSummaries : List (String × ThemeSummary)
  Summary : String
  GlobalSummary : String
  UniqueIdeas : List String
  AnalysisTimestamp : Nat
  ColumnTitle : String
deriving DecidableEq, Repr

/-- The configuration fields consumed by `AnalyzeResponses`
(`config.Config`). -/
structure Config where
  Themes : List String
  ContextPrompt : String
  ThemeSummaryPrompt : String
  GlobalSummaryPrompt : String
  SummaryLength : Int
deriving DecidableEq, Repr

/-- The analyzer's own settings (`analysis.Analyzer` fields). -/
structure AnalyzerCfg where
  batchSize : Int
  parallelWorkers : Int
  useParallel : Bool
deriving DecidableEq, Repr

/-- One request-level event issued to the LLM client, tagged by the call
site in the analyzer/client.  Each constructor corresponds to exactly one
`GetCompletion` attempt. -/
inductive CallEvent where
  | identifyThemesCall (prompt : String) : CallEvent
  | matchBatchCall (texts : List String) : CallEvent
  | themeSummaryCall (theme : String) : CallEvent
  | globalSummaryCall : CallEvent
deriving DecidableEq, Repr

/-- Whether an event belongs to the summary stage (theme or global
summary generation). -/
def CallEvent.isSummaryStage : CallEvent → Bool
  | .themeSummaryCall _ => true
  | .globalSummaryCall => true
  | _ => false

/-- The deterministic completion function assumed of the LLM transport:
`complete prompt systemPrompt` returns either the completion text or an
error message.  This models `Client.GetCompletion` as seen by the
prompt-building client functions (cache and retry are modelled separately
below). -/
structure Oracle where
  complete : String → String → Except String String

/-! ## Kernel-computable string helpers

The Go `strings` helpers (`Split`, `SplitN`, `ReplaceAll`, `TrimSpace`,
`HasPrefix`, slicing) are modelled by character-list implementations so
that concrete runs evaluate inside the kernel. -/

/-- Whether `p` is a prefix of `s` (Go `strings.HasPrefix`, on chars). -/
def charsStartWith : List Char → List Char → Bool
  | _, [] => true
  | [], _ :: _ => false
  | c :: cs, p :: ps => c = p && charsStartWith cs ps

/-- Go `strings.HasPrefix`. -/
def strStartsWith (s p : String) : Bool := charsStartWith s.data p.data

/-- Go slice `s[:n]` (characters). -/
def strTake (s : String) (n : Nat) : String := ⟨s.data.take n⟩

/-- Go slice `s[n:]` (characters). -/
def strDrop (s : String) (n : Nat) : String := ⟨s.data.drop n⟩

/-- Go `strings.TrimSpace`. -/
def strTrim (s : String) : String :=
  ⟨(((s.data.dropWhile Char.isWhitespace).reverse).dropWhile
    Char.isWhitespace).reverse⟩

/-- The split loop of Go `strings.Split` for a non-empty separator; `fuel`
bounds the recursion and is at least the remaining length at every call. -/
def splitOnAuxC (sep : List Char) : Nat → List Char → List Char → List (List Char)
  | _, [], acc => [acc.reverse]
  | 0, cs, acc => [acc.reverse ++ cs]
  | fuel + 1, c :: cs, acc =>
    if charsStartWith (c :: cs) sep then
      acc.reverse :: splitOnAuxC sep fuel ((c :: cs).drop sep.length) []
    else splitOnAuxC sep fuel cs (c :: acc)

/-- Go `strings.Split` (non-empty separator; an empty separator returns the
whole string, which never occurs in the embedded code). -/
def strSplitOn (s sep : String) : List String :=
  if sep.data.isEmpty then [s]
  else (splitOnAuxC sep.data s.data.length s.data []).map (fun cs => ⟨cs⟩)

/-- The replace loop of Go `strings.ReplaceAll` for a non-empty pattern. -/
def replaceAuxC (pat rep : List Char) : Nat → List Char → List Char
  | _, [] => []
  | 0, cs => cs
  | fuel + 1, c :: cs =>
    if charsStartWith (c :: cs) pat then
      rep ++ replaceAuxC pat rep fuel ((c :: cs).drop pat.length)
    else c :: replaceAuxC pat rep fuel cs

/-- Go `strings.ReplaceAll` (non-empty pattern). -/
def strReplace (s pat rep : String) : String :=
  if pat.data.isEmpty then s
  else ⟨replaceAuxC pat.data rep.data s.data.length s.data⟩

/-- Go `strings.Join`. -/
def strJoinSep (sep : String) : List String → String
  | [] => ""
  | [x] => x
  | x :: xs => x ++ sep ++ strJoinSep sep xs

/-! ## LLM client (`pkg/claude/client.go`): prompt construction and parsing -/

/-- `getLanguageInstructions`: language directive for the configured
output language; unrecognized codes (including `en`) yield none. -/
def getLanguageInstructions (outputLanguage : String) : String :=
  if outputLanguage = "de-ch" then
    "Respond in German using Swiss High German spelling (replace ß with ss)."
  else if outputLanguage = "de" then "Respond in German."
  else if outputLanguage = "fr" then "Respond in French."
  else if outputLanguage = "it" then "Respond in Italian."
  else ""

/-- Truncation of an over-long response before prompt insertion
(`if len(response) > limit { response[:cut] + "..." }`); byte lengths are
modelled as character lengths. -/
def truncateResponse (limit cut : Nat) (s : String) : String :=
  if s.length > limit then (strTake s cut) ++ "..." else s

/-- The numbered theme list inserted into matching prompts
(`"%d. %s\n"` per theme, 1-based). -/
def themesNumberedList (themes : List String) : String :=
  String.join (themes.enum.map (fun p =>
    let n := p.1 + 1
    let t := p.2
    s!"{n}. {t}\n"))

/-- The strided sampling loop of `IdentifyThemes`
(`for i := 0; i < responseCount && len(selected) < max; i += step`),
with fuel equal to the remaining capacity of the sample. -/
def strideLoop (responses : List String) (n step i : Nat) : Nat → List String
  | 0 => []
  | fuel + 1 =>
    if i < n then responses.getD i "" :: strideLoop responses n step (i + step) fuel
    else []

/-- The sample of responses inserted into the theme-identification prompt:
all of them when at most 50, otherwise the evenly-strided sample with
`step = responseCount / 50`. -/
def sampleResponses (responses : List String) : List String :=
  let responseCount := responses.length
  if responseCount > 50 then
    strideLoop responses responseCount (responseCount / 50) 0 50
  else responses

/-- The theme-identification prompt of `Client.IdentifyThemes`, including
sampling, truncation and the optional language directive. -/
def identifyThemesPromptOf (outputLanguage : String) (responses : List String) : String :=
  let responseCount := responses.length
  let samplesToUse := min responseCount 50
  let selectedResponses := sampleResponses responses
  let combinedResponses := String.join (selectedResponses.enum.map (fun p =>
    let n := p.1 + 1
    let t := truncateResponse 500 497 p.2
    s!"{n}: {t}\n"))
  let langInstructions := getLanguageInstructions outputLanguage
  let prompt :=
    s!"Identify main themes in these {samplesToUse} survey responses (sample of {responseCount} total):\n\n{combinedResponses}\n\nReturn themes as a YAML list with each theme on a new line starting with a dash."
  if langInstructions ≠ "" then prompt ++ " " ++ langInstructions else prompt

/-- The single-response matching prompt of `Client.MatchResponsesToThemes`. -/
def matchSinglePromptOf (outputLanguage : String) (response : String)
    (themes : List String) : String :=
  let themesText := themesNumberedList themes
  let langInstructions := getLanguageInstructions outputLanguage
  let truncatedResponse := truncateResponse 500 497 response
  let prompt :=
    s!"Here is a survey response:\n\n{truncatedResponse}\n\nHere are the themes:\n{themesText}\n\nWhich themes does this response relate to? Return the theme numbers as a YAML list with each number on a new line starting with a dash."
  if langInstructions ≠ "" then prompt ++ " " ++ langInstructions else prompt

/-- The multi-response batch prompt of `Client.processBatch`. -/
def batchPromptOf (outputLanguage : String) (responses themes : List String) : String :=
  let themesText := themesNumberedList themes
  let prompt := "Analyze multiple survey responses and match each to relevant themes.\n\n"
    ++ "Themes:\n" ++ themesText ++ "\n"
    ++ "For each response, identify which themes apply. Format your answer as:\n"
    ++ "RESPONSE 1: [comma-separated theme numbers]\nRESPONSE 2: [comma-separated theme numbers]\n...\n\n"
    ++ String.join (responses.enum.map (fun p =>
        let n := p.1 + 1
        let t := truncateResponse 300 297 p.2
        s!"RESPONSE {n}: {t}\n\n"))
  let langInstructions := getLanguageInstructions outputLanguage
  if langInstructions ≠ "" then prompt ++ langInstructions ++ "\n" else prompt

/-- The per-theme summary prompt of `Client.GenerateThemeSummary` (with the
length-sorted selection of at most 15 responses). -/
def themeSummaryBody (theme : String) (responses : List String) : String :=
  let maxResponses := 15
  let p0 := s!"Theme: {theme}\n\nResponses:"
  let responses2 :=
    if responses.length > maxResponses then
      (responses.mergeSort (fun a b => a.length ≤ b.length)).take maxResponses
    else responses
  let responsesToInclude := min responses2.length maxResponses
  let p1 := p0 ++ String.join ((responses2.take responsesToInclude).map (fun r =>
    let t := truncateResponse 300 297 r
    s!"\n- {t}"))
  -- the `(Showing %d of %d responses)` suffix of the source is guarded by
  -- `len(responses) > maxResponses` AFTER the reassignment above, so it can
  -- never fire; it is embedded faithfully:
  let p2 := if responses2.length > maxResponses then
      let n := responses2.length
      p1 ++ s!"\n\n(Showing {maxResponses} of {n} responses)"
    else p1
  p2 ++ "\n\nProvide:\nSUMMARY:\n[summary]\n\nUNIQUE IDEAS:\nIDEA: [idea 1]\nIDEA: [idea 2]\n...\n\nDo not include any # symbols in your response."

/-- The per-theme summary prompt of `Client.GenerateThemeSummary`, i.e. the
language-independent body above followed by the optional language
directive. -/
def themeSummaryPromptOf (outputLanguage theme : String)
    (responses : List String) : String :=
  let p3 := themeSummaryBody theme responses
  let langInstructions := getLanguageInstructions outputLanguage
  if langInstructions ≠ "" then p3 ++ "\n" ++ langInstructions else p3

/-- The global summary prompt of `Client.GenerateGlobalSummary`; the Go map
iteration over theme summaries is modelled by the association-list order. -/
def globalSummaryPromptOf (outputLanguage : String)
    (themeSummaries : List (String × ThemeSummary)) (summaryLength : Int) : String :=
  let body := String.join (themeSummaries.map (fun p =>
    let theme := p.1
    let ts := p.2
    let head := s!"## {theme}\n" ++ ts.Summary ++ "\n"
    let ideasPart :=
      if ts.UniqueIdeas.length > 0 then
        let maxIdeas := min ts.UniqueIdeas.length 3
        let listed := "Key ideas:\n" ++ String.join ((ts.UniqueIdeas.take maxIdeas).map
          (fun i => "- " ++ i ++ "\n"))
        if ts.UniqueIdeas.length > maxIdeas then
          let more := ts.UniqueIdeas.length - maxIdeas
          listed ++ s!"(+ {more} more ideas)\n"
        else listed
      else ""
    head ++ ideasPart ++ "\n"))
  let langInstructions := getLanguageInstructions outputLanguage
  let prompt := "Theme summaries from survey responses:\n\n" ++ body
    ++ s!"Create a comprehensive global summary highlighting the most important findings. Length: ~{summaryLength} characters."
  if langInstructions ≠ "" then prompt ++ " " ++ langInstructions else prompt

/-! ## LLM client: structured extraction -/


/-- Model of `fmt.Sscanf(s, "%d", &num)`: skip surrounding whitespace and
parse an optional sign followed by at least one decimal digit
(trailing non-digits are ignored, as in `Sscanf`). -/
def sscanfInt (s : String) : Option Int :=
  let parseDigits : List Char → Option Nat := fun cs =>
    let ds := cs.takeWhile Char.isDigit
    if ds.isEmpty then none
    else some (ds.foldl (fun a c => a * 10 + (c.toNat - 48)) 0)
  match (strTrim s).toList with
  | [] => none
  | c :: rest =>
    if c = '-' then (parseDigits rest).map (fun n => -(n : Int))
    else if c = '+' then (parseDigits rest).map (fun n => (n : Int))
    else (parseDigits (c :: rest)).map (fun n => (n : Int))

/-- Model of Go `strings.SplitN(s, sep, 2)`: `some (before, after)` when
the separator occurs, `none` when it does not (one part). -/
def splitN2 (s sep : String) : Option (String × String) :=
  match strSplitOn s sep with
  | [] => none
  | [_] => none
  | a :: rest => some (a, strJoinSep sep rest)

/-- The comma-separated theme-number list of one `RESPONSE n:` line, turned
into theme names (out-of-range numbers are dropped). -/
def parseThemeNums (s : String) (themes : List String) : List String :=
  let cleaned := strReplace (strTrim s) " " ""
  (strSplitOn cleaned ",").foldl (fun acc numStr =>
    match sscanfInt numStr with
    | some n =>
      if 0 < n ∧ n ≤ (themes.length : Int) then
        acc ++ [themes.getD (n.toNat - 1) ""]
      else acc
    | none => acc) []

/-- One line of `parseBatchResults`: `some (n, themes)` when the line is a
well-formed `RESPONSE n: ...` line with `1 ≤ n ≤ responseCount`. -/
def parseBatchLine (line : String) (responseCount : Nat) (themes : List String) :
    Option (Nat × List String) :=
  let l := strTrim line
  if strStartsWith l "RESPONSE " then
    match splitN2 l ":" with
    | some (before, after) =>
      match sscanfInt (strDrop before 9) with
      | some n =>
        if 1 ≤ n ∧ n ≤ (responseCount : Int) then some (n.toNat, parseThemeNums after themes)
        else none
      | none => none
    | none => none
  else none

/-- `Client.parseBatchResults`: positional parsing of the batch protocol;
missing or malformed lines leave the empty theme set in place. -/
def parseBatchResults (completion : String) (responseCount : Nat)
    (themes : List String) : List (List String) :=
  (strSplitOn completion "\n").foldl (fun results line =>
    match parseBatchLine line responseCount themes with
    | some (n, ts) => results.set (n - 1) ts
    | none => results) (List.replicate responseCount ([] : List String))

theorem parseBatchResults_length (completion : String) (responseCount : Nat)
    (themes : List String) :
    (parseBatchResults completion responseCount themes).length = responseCount := by
  unfold parseBatchResults
  generalize (strSplitOn completion "\n") = lines
  have h : ∀ (init : List (List String)),
      ((lines.foldl (fun results line =>
        match parseBatchLine line responseCount themes with
        | some (n, ts) => results.set (n - 1) ts
        | none => results) init)).length = init.length := by
    induction lines with
    | nil => intro init; rfl
    | cons l rest ih =>
      intro init
      rw [List.foldl_cons]
      cases parseBatchLine l responseCount themes with
      | none => exact ih init
      | some p => rw [ih]; exact List.length_set ..
  rw [h]; exact List.length_replicate ..

/-- `extractThemesFromYAML`: dash-bulleted theme extraction. -/
def extractThemesFromYAML (yamlText : String) : List String :=
  (strSplitOn yamlText "\n").foldl (fun acc line =>
    let trimmed := strTrim line
    if strStartsWith trimmed "-" then
      let theme := strTrim (strDrop trimmed 1)
      if theme ≠ "" then acc ++ [theme] else acc
    else acc) []

/-- Go `strings.TrimPrefix`. -/
def trimPfx (s p : String) : String :=
  if strStartsWith s p then strDrop s p.length else s

/-- `analysis.extractSummaryAndIdeas`: split a theme-summary completion into
the summary section and the `UNIQUE IDEAS:` list. -/
def extractSummaryAndIdeas (response : String) : String × List String :=
  let r := strReplace (strReplace (strReplace (strReplace (strReplace
    response "# SUMMARY:" "SUMMARY:") "#SUMMARY:" "SUMMARY:")
    "# UNIQUE IDEAS:" "UNIQUE IDEAS:") "#UNIQUE IDEAS:" "UNIQUE IDEAS:") "#" ""
  match strSplitOn r "UNIQUE IDEAS:" with
  | [] => (strTrim r, [])
  | [_] => (strTrim r, [])
  | p0 :: p1 :: _ =>
    let summary0 := strTrim p0
    let summary := if strStartsWith summary0 "SUMMARY:" then
        strTrim (strDrop summary0 8)
      else summary0
    let ideas := (strSplitOn p1 "\n").foldl (fun acc line0 =>
      let line := strTrim line0
      if strStartsWith line "IDEA: " then
        let idea := trimPfx line "IDEA: "
        if idea ≠ "" then acc ++ [idea] else acc
      else if strStartsWith line "- " then
        let idea := trimPfx line "- "
        if idea ≠ "" then acc ++ [idea] else acc
      else acc) []
    (summary, ideas)

/-! ## LLM client: completion-issuing functions

Each function builds its prompt, issues one completion request through the
`Oracle` and records a stage-tagged `CallEvent` for the request. -/

/-- `Client.IdentifyThemes`. -/
def clientIdentifyThemes (o : Oracle) (outputLanguage : String)
    (responses : List String) (contextPrompt : String) :
    Except String (List String) × List CallEvent :=
  let prompt := identifyThemesPromptOf outputLanguage responses
  match o.complete prompt contextPrompt with
  | .error e => (.error s!"failed to identify themes: {e}", [.identifyThemesCall prompt])
  | .ok completion =>
    (.ok (extractThemesFromYAML completion), [.identifyThemesCall prompt])

/-- `Client.processBatch`: one batch-matching API call plus positional
parsing of the result. -/
def processBatch (o : Oracle) (outputLanguage : String)
    (responses themes : List String) (contextPrompt : String) :
    Except String (List (List String)) × List CallEvent :=
  let prompt := batchPromptOf outputLanguage responses themes
  match o.complete prompt contextPrompt with
  | .error e =>
    (.error s!"failed to match responses to themes in batch: {e}",
      [.matchBatchCall responses])
  | .ok completion =>
    (.ok (parseBatchResults completion responses.length themes),
      [.matchBatchCall responses])

/-- The structural engine of `chunks`: `fuel` bounds the recursion depth and
is always at least the list length at every call site. -/
def chunksF (k : Nat) : Nat → List α → List (List α)
  | _, [] => []
  | 0, _ :: _ => []
  | fuel + 1, a :: as => (a :: as.take (k - 1)) :: chunksF k fuel (as.drop (k - 1))

/-- Contiguous batches of size `k` (the slicing loop shared by
`MatchResponsesToThemesBatch` and the parallel dispatcher). -/
def chunks (l : List α) (k : Nat) : List (List α) := chunksF k l.length l

theorem chunksF_nil (k fuel : Nat) : chunksF k fuel ([] : List α) = [] := by
  cases fuel <;> rfl

theorem chunksF_fuel_irrel (k : Nat) :
    ∀ (fuel₁ fuel₂ : Nat) (l : List α), l.length ≤ fuel₁ → l.length ≤ fuel₂ →
      chunksF k fuel₁ l = chunksF k fuel₂ l := by
  intro fuel₁
  induction fuel₁ with
  | zero =>
    intro fuel₂ l h1 _
    have : l = [] := List.length_eq_zero.1 (Nat.le_zero.1 h1)
    subst this
    rw [chunksF_nil, chunksF_nil]
  | succ f ih =>
    intro fuel₂ l h1 h2
    cases l with
    | nil => rw [chunksF_nil, chunksF_nil]
    | cons a as =>
      cases fuel₂ with
      | zero => simp at h2
      | succ f2 =>
        simp only [chunksF]
        congr 1
        exact ih f2 (as.drop (k - 1))
          (le_trans (List.length_drop .. ▸ Nat.sub_le ..) (by simpa using h1))
          (le_trans (List.length_drop .. ▸ Nat.sub_le ..) (by simpa using h2))

theorem chunks_nil (k : Nat) : chunks ([] : List α) k = [] := rfl

theorem chunks_cons (a : α) (as : List α) (k : Nat) :
    chunks (a :: as) k = (a :: as.take (k - 1)) :: chunks (as.drop (k - 1)) k := by
  unfold chunks
  simp only [List.length_cons, chunksF]
  congr 1
  exact chunksF_fuel_irrel k as.length (as.drop (k - 1)).length (as.drop (k - 1))
    (List.length_drop .. ▸ Nat.sub_le ..) (le_refl _)

/-- The sequential per-batch loop inside `Client.MatchResponsesToThemesBatch`,
with `i` the running start offset used in the batch error message. -/
def runChunksAux (o : Oracle) (outputLanguage : String) (themes : List String)
    (contextPrompt : String) :
    List (List String) → Nat → Except String (List (List String)) × List CallEvent
  | [], _ => (.ok [], [])
  | b :: bs, i =>
    match processBatch o outputLanguage b themes contextPrompt with
    | (.error e, ev) =>
      let j := i + b.length
      (.error s!"failed to process batch {i}-{j}: {e}", ev)
    | (.ok rs, ev) =>
      match runChunksAux o outputLanguage themes contextPrompt bs (i + b.length) with
      | (.error e, ev2) => (.error e, ev ++ ev2)
      | (.ok rest, ev2) => (.ok (rs ++ rest), ev ++ ev2)

/-- `Client.MatchResponsesToThemesBatch`. -/
def clientMatchBatch (o : Oracle) (outputLanguage : String)
    (responses themes : List String) (contextPrompt : String) (batchSize : Int) :
    Except String (List (List String)) × List CallEvent :=
  let bs := if batchSize ≤ 0 then (10 : Int) else batchSize
  runChunksAux o outputLanguage themes contextPrompt (chunks responses bs.toNat) 0

/-- `Client.GenerateThemeSummary`. -/
def clientGenerateThemeSummary (o : Oracle) (outputLanguage theme : String)
    (responses : List String) (themeSummaryPrompt : String) :
    Except String String × List CallEvent :=
  let prompt := themeSummaryPromptOf outputLanguage theme responses
  match o.complete prompt themeSummaryPrompt with
  | .error e => (.error s!"failed to generate theme summary: {e}", [.themeSummaryCall theme])
  | .ok completion => (.ok completion, [.themeSummaryCall theme])

/-- `Client.GenerateGlobalSummary`. -/
def clientGenerateGlobalSummary (o : Oracle) (outputLanguage : String)
    (themeSummaries : List (String × ThemeSummary)) (globalSummaryPrompt : String)
    (summaryLength : Int) : Except String String × List CallEvent :=
  let prompt := globalSummaryPromptOf outputLanguage themeSummaries summaryLength
  match o.complete prompt globalSummaryPrompt with
  | .error e => (.error s!"failed to generate global summary: {e}", [.globalSummaryCall])
  | .ok completion => (.ok completion, [.globalSummaryCall])

/-! ## Analyzer (`pkg/analysis`, the `unnamed/part_001` version) -/

/-- Whether a response is dirty (new id or changed hash) with respect to the
prior run's analyses (spec glossary: "dirty response"). -/
def isUnchanged (previousAnalyses : List (String × ResponseAnalysis))
    (r : Response) : Bool :=
  match mlookup r.ID previousAnalyses with
  | some previousAnalysis => previousAnalysis.Response.Hash = r.Hash
  | none => false

/-- The partition loop shared by both matchers: unchanged responses are
copied into the result verbatim, the rest are collected for matching. -/
def partitionResponses (responses : List Response)
    (previousAnalyses : List (String × ResponseAnalysis)) :
    List (String × ResponseAnalysis) × List Response :=
  responses.foldl (fun acc r =>
    match mlookup r.ID previousAnalyses with
    | some previousAnalysis =>
      if previousAnalysis.Response.Hash = r.Hash then
        (minsert r.ID previousAnalysis acc.1, acc.2)
      else (acc.1, acc.2 ++ [r])
    | none => (acc.1, acc.2 ++ [r])) ([], [])

/-- The batch-size defaulting logic shared by `MatchResponsesToThemes` and
`MatchResponsesToThemesParallel` (`n` is the number of new responses). -/
def defaultBatchSize (batchSize : Int) (n : Nat) : Int :=
  if batchSize ≤ 0 then
    if n > 100 then 20 else if n < 10 then (n : Int) else 10
  else batchSize

/-- The analysis-building loop over the new responses: position `i` takes
`matchedThemesBatch[i]` when present and the empty set otherwise, and every
new analysis is stamped with the current time. -/
def buildAnalysisPairs (now : Nat) :
    List Response → List (List String) → List (String × ResponseAnalysis)
  | [], _ => []
  | r :: rs, matched =>
    (r.ID, ⟨r, matched.headD [], now⟩) :: buildAnalysisPairs now rs matched.tail

/-- Merging a list of `(id, analysis)` writes into a result map, in order. -/
def mergePairs (pairs : List (String × ResponseAnalysis))
    (acc : List (String × ResponseAnalysis)) : List (String × ResponseAnalysis) :=
  pairs.foldl (fun m p => minsert p.1 p.2 m) acc

/-- `Analyzer.MatchResponsesToThemes` (serial matching dispatch). -/
def MatchResponsesToThemes (o : Oracle) (outputLanguage : String)
    (responses : List Response) (themes : List String) (contextPrompt : String)
    (previousAnalyses : List (String × ResponseAnalysis)) (batchSize : Int)
    (now : Nat) : Except String (List (String × ResponseAnalysis)) × List CallEvent :=
  let pr := partitionResponses responses previousAnalyses
  let result := pr.1
  let newResponses := pr.2
  if newResponses.isEmpty then (.ok result, [])
  else
    let responseTexts := newResponses.map Response.Text
    let bs := defaultBatchSize batchSize newResponses.length
    match clientMatchBatch o outputLanguage responseTexts themes contextPrompt bs with
    | (.error e, ev) =>
      (.error s!"failed to match responses to themes in batch: {e}", ev)
    | (.ok matchedThemesBatch, ev) =>
      (.ok (mergePairs (buildAnalysisPairs now newResponses matchedThemesBatch) result), ev)

/-- One worker of the parallel dispatcher: batch `index` is matched through
the client's batch API and turned into analysis writes. -/
def workerRun (o : Oracle) (outputLanguage : String) (themes : List String)
    (contextPrompt : String) (now : Nat) (batch : List Response) (index : Nat) :
    Except String (List (String × ResponseAnalysis)) × List CallEvent :=
  let responseTexts := batch.map Response.Text
  match clientMatchBatch o outputLanguage responseTexts themes contextPrompt
      (batch.length : Int) with
  | (.error e, ev) => (.error s!"failed to process batch {index}: {e}", ev)
  | (.ok matchedThemesBatch, ev) =>
    (.ok (buildAnalysisPairs now batch matchedThemesBatch), ev)

/-- Worker completions in schedule order: each completed batch either merges
its writes into the shared result map or appends its error. -/
def parallelLoop (o : Oracle) (outputLanguage : String) (themes : List String)
    (contextPrompt : String) (now : Nat) (batches : List (List Response)) :
    List Nat → List (String × ResponseAnalysis) → List String → List CallEvent →
    List (String × ResponseAnalysis) × List String × List CallEvent
  | [], acc, errs, evs => (acc, errs, evs)
  | j :: rest, acc, errs, evs =>
    match workerRun o outputLanguage themes contextPrompt now (batches.getD j []) j with
    | (.error e, ev) =>
      parallelLoop o outputLanguage themes contextPrompt now batches rest acc
        (errs ++ [e]) (evs ++ ev)
    | (.ok pairs, ev) =>
      parallelLoop o outputLanguage themes contextPrompt now batches rest
        (mergePairs pairs acc) errs (evs ++ ev)

/-- `Analyzer.MatchResponsesToThemesParallel`: parallel matching dispatch.
`sched` is the order in which the concurrently running batch workers
complete (a permutation of the batch indices).  A failed batch contributes
its error; after all workers complete, any error makes the whole call fail
with the aggregated message and no result map. -/
def MatchResponsesToThemesParallel (o : Oracle) (outputLanguage : String)
    (responses : List Response) (themes : List String) (contextPrompt : String)
    (previousAnalyses : List (String × ResponseAnalysis))
    (batchSize numWorkers : Int) (now : Nat) (sched : List Nat) :
    Except String (List (String × ResponseAnalysis)) × List CallEvent :=
  let pr := partitionResponses responses previousAnalyses
  let result := pr.1
  let newResponses := pr.2
  if newResponses.isEmpty then (.ok result, [])
  else
    let bs := defaultBatchSize batchSize newResponses.length
    -- `numWorkers` only caps in-flight concurrency (the semaphore size);
    -- it does not influence any published value and is absorbed by `sched`.
    let batches := chunks newResponses bs.toNat
    match parallelLoop o outputLanguage themes contextPrompt now batches sched
        result [] [] with
    | (acc, errs, evs) =>
      if errs.isEmpty then (.ok acc, evs)
      else
        (.error ("errors occurred during parallel processing: "
          ++ String.intercalate "; " errs), evs)

/-- The inner step of `BuildThemeAnalyses`: append `responseID` to the
matched theme's list when — and only when — the theme exists. -/
def addTheme (responseID : String) (result : List (String × ThemeAnalysis))
    (theme : String) : List (String × ThemeAnalysis) :=
  match mlookup theme result with
  | some themeAnalysis =>
    minsert theme ⟨themeAnalysis.Theme, themeAnalysis.Responses ++ [responseID]⟩ result
  | none => result

/-- `Analyzer.BuildThemeAnalyses`: theme → response-id lists, rebuilt from
scratch by scanning all response analyses; unknown themes are ignored. -/
def BuildThemeAnalyses (responseAnalyses : List (String × ResponseAnalysis))
    (themes : List String) : List (String × ThemeAnalysis) :=
  let init := themes.foldl (fun m theme => minsert theme ⟨theme, []⟩ m) []
  responseAnalyses.foldl (fun result p =>
    p.2.Themes.foldl (addTheme p.1) result) init

/-- `Analyzer.GenerateThemeSummaries`: one summary per theme with at least
one matched response; themes with no responses are skipped entirely. -/
def GenerateThemeSummaries (o : Oracle) (outputLanguage : String)
    (responseAnalyses : List (String × ResponseAnalysis))
    (themeSummaryPrompt : String) :
    List (String × ThemeAnalysis) → List (String × ThemeSummary) →
    Except String (List (String × ThemeSummary)) × List CallEvent
  | [], acc => (.ok acc, [])
  | (theme, analysis) :: rest, acc =>
    if analysis.Responses.length = 0 then
      GenerateThemeSummaries o outputLanguage responseAnalyses themeSummaryPrompt rest acc
    else
      let texts := analysis.Responses.filterMap (fun id =>
        (mlookup id responseAnalyses).map (fun a => a.Response.Text))
      match clientGenerateThemeSummary o outputLanguage theme texts themeSummaryPrompt with
      | (.error e, ev) =>
        (.error s!"failed to generate summary for theme {theme}: {e}", ev)
      | (.ok completion, ev) =>
        let p := extractSummaryAndIdeas completion
        match GenerateThemeSummaries o outputLanguage responseAnalyses
            themeSummaryPrompt rest (minsert theme ⟨p.1, p.2⟩ acc) with
        | (res, ev2) => (res, ev ++ ev2)

/-- `Analyzer.GenerateGlobalSummary` (wraps the client call). -/
def GenerateGlobalSummary (o : Oracle) (outputLanguage : String)
    (themeSummaries : List (String × ThemeSummary)) (globalSummaryPrompt : String)
    (summaryLength : Int) : Except String String × List CallEvent :=
  match clientGenerateGlobalSummary o outputLanguage themeSummaries
      globalSummaryPrompt summaryLength with
  | (.error e, ev) => (.error s!"failed to generate global summary: {e}", ev)
  | (.ok summary, ev) => (.ok summary, ev)

/-- `Analyzer.IdentifyThemes` (wraps the client call). -/
def analyzerIdentifyThemes (o : Oracle) (outputLanguage : String)
    (responses : List Response) (contextPrompt : String) :
    Except String (List String) × List CallEvent :=
  let responseTexts := responses.map Response.Text
  match clientIdentifyThemes o outputLanguage responseTexts contextPrompt with
  | (.error e, ev) => (.error s!"failed to identify themes: {e}", ev)
  | (.ok themes, ev) => (.ok themes, ev)

/-- The summary-change check of `AnalyzeResponses`: the count differs, or
some new analysis has no prior entry with the same content hash. -/
def responsesChangedB (previousAnalyses newAnalyses : List (String × ResponseAnalysis)) :
    Bool :=
  decide (previousAnalyses.length ≠ newAnalyses.length) ||
    newAnalyses.any (fun p =>
      match mlookup p.1 previousAnalyses with
      | none => true
      | some prevAnalysis => decide (prevAnalysis.Response.Hash ≠ p.2.Response.Hash))

/-- The built-in fallback prompt used when a summary length is configured
without a global-summary prompt. -/
def defaultGlobalPrompt : String :=
  "Summarize the main points made in each theme and highlight any unique ideas or problems mentioned."

/-- The theme-acquisition stage of `AnalyzeResponses`: themes come from the
configuration, or are identified (with the outer error wrap) when none are
supplied. -/
def themesStageF (o : Oracle) (outputLanguage : String)
    (responses : List Response) (cfg : Config) :
    Except String (List String) × List CallEvent :=
  if cfg.Themes.length = 0 then
    match analyzerIdentifyThemes o outputLanguage responses cfg.ContextPrompt with
    | (.error e, ev) => (.error s!"failed to identify themes: {e}", ev)
    | (.ok themes, ev) => (.ok themes, ev)
  else (.ok cfg.Themes, [])

/-- The matching stage of `AnalyzeResponses`: parallel or serial dispatch
according to the analyzer's configuration, with the stage error wrap. -/
def matchStageF (a : AnalyzerCfg) (o : Oracle) (outputLanguage : String)
    (responses : List Response) (themes : List String) (contextPrompt : String)
    (previousAnalyses : List (String × ResponseAnalysis)) (now : Nat)
    (sched : List Nat) :
    Except String (List (String × ResponseAnalysis)) × List CallEvent :=
  if a.useParallel then
    match MatchResponsesToThemesParallel o outputLanguage responses themes
        contextPrompt previousAnalyses a.batchSize a.parallelWorkers now sched with
    | (.error e, ev) =>
      (.error s!"failed to match responses to themes in parallel: {e}", ev)
    | (.ok m, ev) => (.ok m, ev)
  else
    match MatchResponsesToThemes o outputLanguage responses themes contextPrompt
        previousAnalyses a.batchSize now with
    | (.error e, ev) => (.error s!"failed to match responses to themes: {e}", ev)
    | (.ok m, ev) => (.ok m, ev)

/-- The theme-summary stage of `AnalyzeResponses` (runs only when themes and
a theme-summary prompt are configured). -/
def themeSummariesStageF (o : Oracle) (outputLanguage : String)
    (responseAnalyses : List (String × ResponseAnalysis))
    (themeAnalyses : List (String × ThemeAnalysis)) (themes : List String)
    (cfg : Config) :
    Except String (List (String × ThemeSummary)) × List CallEvent :=
  if themes.length > 0 ∧ cfg.ThemeSummaryPrompt ≠ "" then
    GenerateThemeSummaries o outputLanguage responseAnalyses cfg.ThemeSummaryPrompt
      themeAnalyses []
  else (.ok [], [])

/-- The global-summary stage of `AnalyzeResponses`: the configured prompt,
or the built-in default when only a summary length is given; returns
`(GlobalSummary, Summary)`. -/
def globalSummaryStageF (o : Oracle) (outputLanguage : String)
    (themes : List String) (themeSummaries : List (String × ThemeSummary))
    (cfg : Config) : Except String (String × String) × List CallEvent :=
  if themes.length > 0 ∧ cfg.GlobalSummaryPrompt ≠ "" ∧ cfg.SummaryLength > 0 then
    match GenerateGlobalSummary o outputLanguage themeSummaries
        cfg.GlobalSummaryPrompt cfg.SummaryLength with
    | (.error e, ev) => (.error s!"failed to generate global summary: {e}", ev)
    | (.ok s, ev) => (.ok (s, s), ev)
  else if themes.length > 0 ∧ cfg.SummaryLength > 0 then
    match GenerateGlobalSummary o outputLanguage themeSummaries
        defaultGlobalPrompt cfg.SummaryLength with
    | (.error e, ev) => (.error s!"failed to generate global summary: {e}", ev)
    | (.ok s, ev) => (.ok (s, s), ev)
  else (.ok ("", ""), [])

/-- `Analyzer.AnalyzeResponses`: the orchestrated run.  Returns the new
result (or the first stage error) together with the request-level events
issued during the run. -/
def AnalyzeResponses (a : AnalyzerCfg) (o : Oracle) (outputLanguage : String)
    (responses : List Response) (cfg : Config)
    (previousResult : Option AnalysisResult) (columnTitle : String) (now : Nat)
    (sched : List Nat) : Except String AnalysisResult × List CallEvent :=
  match themesStageF o outputLanguage responses cfg with
  | (.error e, ev) => (.error e, ev)
  | (.ok themes, evThemes) =>
    let previousAnalyses := match previousResult with
      | some prev => prev.ResponseAnalyses
      | none => []
    match matchStageF a o outputLanguage responses themes cfg.ContextPrompt
        previousAnalyses now sched with
    | (.error e, ev) => (.error e, evThemes ++ ev)
    | (.ok responseAnalyses, evMatch) =>
      let themeAnalyses := BuildThemeAnalyses responseAnalyses themes
      let responsesChanged := responsesChangedB previousAnalyses responseAnalyses
      let reuse := !responsesChanged && previousResult.isSome &&
        (match previousResult with
         | some prev => decide (prev.ThemeSummaries.length > 0)
         | none => false)
      if reuse then
        match previousResult with
        | some prev =>
          (.ok { Themes := themes, ResponseAnalyses := responseAnalyses,
                 ThemeAnalyses := themeAnalyses,
                 ThemeSummaries := prev.ThemeSummaries,
                 Summary := prev.Summary, GlobalSummary := prev.GlobalSummary,
                 UniqueIdeas := [], AnalysisTimestamp := now,
                 ColumnTitle := columnTitle }, evThemes ++ evMatch)
        | none => (.error "unreachable", evThemes ++ evMatch)
      else
        match themeSummariesStageF o outputLanguage responseAnalyses themeAnalyses
            themes cfg with
        | (.error e, ev) =>
          (.error s!"failed to generate theme summaries: {e}",
            evThemes ++ evMatch ++ ev)
        | (.ok themeSummaries, evTS) =>
          match globalSummaryStageF o outputLanguage themes themeSummaries cfg with
          | (.error e, ev) => (.error e, evThemes ++ evMatch ++ evTS ++ ev)
          | (.ok (globalSummary, summary), evGS) =>
            (.ok { Themes := themes, ResponseAnalyses := responseAnalyses,
                   ThemeAnalyses := themeAnalyses,
                   ThemeSummaries := themeSummaries,
                   Summary := summary, GlobalSummary := globalSummary,
                   UniqueIdeas := [], AnalysisTimestamp := now,
                   ColumnTitle := columnTitle }, evThemes ++ evMatch ++ evTS ++ evGS)

/-! ## Completion cache (`pkg/cache`, `unnamed/part_002`) -/

/-- `cache.CacheEntry`. -/
structure CacheEntry where
  Key : String
  Value : String
  CreatedAt : Nat
  ExpiresAt : Nat
deriving DecidableEq, Repr

/-- `cache.Cache` (logger and directory omitted; the mutex is irrelevant in
this sequential model). -/
structure Cache where
  entries : List (String × CacheEntry)
  ttl : Nat
  persisted : Bool
deriving DecidableEq, Repr

/-- `cache.hashKey`: the SHA-256 hex digest used to derive bounded,
path-safe file and index names from a fingerprint key.  The claims proved
below depend only on equal keys hashing equally, so the digest is modelled
as the identity key-derivation function. -/
def hashKey (key : String) : String := key

/-- `Cache.Get`: lazy-expiry lookup; an expired entry is deleted from the
index (and its file removed asynchronously).  Returns the updated cache. -/
def cacheGet (c : Cache) (now : Nat) (key : String) : Cache × Option String :=
  let hashedKey := hashKey key
  match mlookup hashedKey c.entries with
  | none => (c, none)
  | some entry =>
    if now > entry.ExpiresAt then
      ({ c with entries := c.entries.filter (fun p => p.1 ≠ hashedKey) }, none)
    else (c, some entry.Value)

/-- `Cache.Set`: the entry is stored in the in-memory index first; only then
is it persisted, and a persistence failure is returned to the caller
(`persistResult` models the outcome of the disk write). -/
def cacheSet (c : Cache) (persistResult : Except String Unit) (now : Nat)
    (key value : String) : Cache × Except String Unit :=
  let hashedKey := hashKey key
  let entry : CacheEntry :=
    { Key := key, Value := value, CreatedAt := now, ExpiresAt := now + c.ttl }
  let c' := { c with entries := minsert hashedKey entry c.entries }
  if c.persisted then
    match persistResult with
    | .error e => (c', .error s!"failed to persist cache entry: {e}")
    | .ok _ => (c', .ok ())
  else (c', .ok ())

/-! ## `Client.GetCompletion`: cache check, rate limiting, retry/backoff,
cost accounting -/

/-- One HTTP-level response of the Claude API transport, with the error
message already extracted from the error JSON body. -/
inductive ApiResponse where
  | ok (text : String) (inputTokens outputTokens : Nat) : ApiResponse
  | tooManyRequests (msg : String) : ApiResponse
  | otherError (status : Nat) (msg : String) : ApiResponse
deriving DecidableEq, Repr

/-- `claude.ModelCostPerMillionTokens` (USD, exact rationals). -/
def ModelCostPerMillionTokens (model : String) : ℚ × ℚ :=
  if model = "claude-3-opus-20240229" then (15, 75)
  else if model = "claude-3-sonnet-20240229" then (3, 15)
  else if model = "claude-3-haiku-20240307" then (1/4, 5/4)
  else if model = "claude-3-7-sonnet-20250219" then (3, 15)
  else if model = "claude-2.1" then (8, 24)
  else if model = "claude-2.0" then (8, 24)
  else (15, 75)

/-- `claude.Cost`. -/
structure Cost where
  InputTokens : Nat
  OutputTokens : Nat
  TotalTokens : Nat
  Cost : ℚ
deriving DecidableEq, Repr

/-- `claude.CalculateCost`. -/
def CalculateCost (model : String) (inputTokens outputTokens : Nat) : Cost :=
  let pc := ModelCostPerMillionTokens model
  let inputCost := (inputTokens : ℚ) * pc.1 / 1000000
  let outputCost := (outputTokens : ℚ) * pc.2 / 1000000
  { InputTokens := inputTokens, OutputTokens := outputTokens,
    TotalTokens := inputTokens + outputTokens, Cost := inputCost + outputCost }

/-- The mutable client state touched by `GetCompletion`: the cache (when
configured) and the process-wide usage accumulators. -/
structure ClientState where
  cache : Option Cache
  totalCost : ℚ
  totalTokens : Nat
deriving DecidableEq, Repr

/-- Decidable equality for `Except`, used to evaluate outcomes on concrete
inputs. -/
instance exceptDecEq [DecidableEq ε] [DecidableEq α] :
    DecidableEq (Except ε α) := fun a b =>
  match a, b with
  | .ok x, .ok y =>
    if h : x = y then isTrue (by rw [h]) else isFalse (by intro hh; cases hh; exact h rfl)
  | .error x, .error y =>
    if h : x = y then isTrue (by rw [h]) else isFalse (by intro hh; cases hh; exact h rfl)
  | .ok _, .error _ => isFalse (by intro hh; cases hh)
  | .error _, .ok _ => isFalse (by intro hh; cases hh)

/-- The observable outcome of one `GetCompletion` call: result, updated
state, total units slept (`time.Sleep` calls) and HTTP requests sent. -/
structure CompletionOutcome where
  result : Except String String
  state : ClientState
  totalSleep : Nat
  requestsSent : Nat
deriving DecidableEq, Repr

/-- `maxRetries` of the retry loop. -/
def maxRetries : Nat := 3

/-- The retry loop of `GetCompletion` (`for retry := 0; retry <= maxRetries;
retry++`): a 200 stores to the cache and updates the usage totals; a 429
with retries left sleeps `baseDelay * 2^retry` and retries; any other
response — including a 429 on the final attempt — fails with the upstream
status and message. -/
def getCompletionLoop (model : String) (baseDelay : Nat) (persistResult : Except String Unit)
    (now : Nat) (cacheKey : String) (st : ClientState) (sleepAcc reqAcc : Nat) :
    List ApiResponse → Nat → CompletionOutcome
  | [], _ =>
    { result := .error "failed to send request: no response", state := st,
      totalSleep := sleepAcc, requestsSent := reqAcc }
  | resp :: rest, retry =>
    match resp with
    | .ok text inputTokens outputTokens =>
      let st' := match st.cache with
        | some c => { st with cache := some (cacheSet c persistResult now cacheKey text).1 }
        | none => st
      let cost := CalculateCost model inputTokens outputTokens
      let stFinal : ClientState :=
        { cache := st'.cache, totalCost := st'.totalCost + cost.Cost,
          totalTokens := st'.totalTokens + cost.TotalTokens }
      { result := .ok text, state := stFinal,
        totalSleep := sleepAcc, requestsSent := reqAcc + 1 }
    | .tooManyRequests msg =>
      if retry < maxRetries then
        let delay := baseDelay * 2 ^ retry
        getCompletionLoop model baseDelay persistResult now cacheKey st
          (sleepAcc + delay) (reqAcc + 1) rest (retry + 1)
      else
        { result := .error s!"Claude API request failed with status 429: {msg}",
          state := st, totalSleep := sleepAcc, requestsSent := reqAcc + 1 }
    | .otherError status msg =>
      { result := .error s!"Claude API request failed with status {status}: {msg}",
        state := st, totalSleep := sleepAcc, requestsSent := reqAcc + 1 }

/-- `Client.GetCompletion`: cache-first, then the rate-limit delay, then the
retry loop over the transport's responses. -/
def GetCompletion (model : String) (rateLimitDelay : Nat)
    (persistResult : Except String Unit) (st : ClientState) (now : Nat)
    (api : List ApiResponse) (prompt systemPrompt : String) (maxTokens : Int) :
    CompletionOutcome :=
  let cacheKey := s!"{model}:{systemPrompt}:{maxTokens}:{prompt}"
  match st.cache with
  | some c =>
    match cacheGet c now cacheKey with
    | (_, some v) => { result := .ok v, state := st, totalSleep := 0, requestsSent := 0 }
    | (c', none) =>
      let st' := { st with cache := some c' }
      let initialSleep := if rateLimitDelay > 0 then rateLimitDelay else 0
      getCompletionLoop model rateLimitDelay persistResult now cacheKey st'
        initialSleep 0 api 0
  | none =>
    let initialSleep := if rateLimitDelay > 0 then rateLimitDelay else 0
    getCompletionLoop model rateLimitDelay persistResult now cacheKey st
      initialSleep 0 api 0

/-! ## Claims -/

/-! ### C6: deterministic strided sampling in `IdentifyThemes` -/

theorem strideLoop_eq (responses : List String) (n step : Nat) :
    ∀ (f i : Nat), (∀ k, k < f → i + k * step < n) →
      strideLoop responses n step i f
        = (List.range f).map (fun k => responses.getD (i + k * step) "") := by
  intro f
  induction f with
  | zero => intro i _; simp [strideLoop]
  | succ f ih =>
    intro i h
    have hi : i < n := by
      have := h 0 (Nat.succ_pos f)
      simpa using this
    have hrec := ih (i + step) (by
      intro k hk
      have := h (k + 1) (Nat.succ_lt_succ hk)
      rw [Nat.succ_mul] at this
      omega)
    rw [strideLoop, if_pos hi, hrec, List.range_succ_eq_map]
    simp only [List.map_cons, List.map_map]
    congr 1
    · simp
    · apply List.map_congr_left
      intro k _
      simp only [Function.comp_apply]
      congr 1
      rw [Nat.succ_mul]
      omega

theorem sampleResponses_eq_strided (responses : List String)
    (h : responses.length > 50) :
    sampleResponses responses
      = (List.range 50).map (fun k =>
          responses.getD (k * (responses.length / 50)) "") := by
  unfold sampleResponses
  rw [if_pos h]
  have hstep : 1 ≤ responses.length / 50 := (Nat.one_le_div_iff (by omega)).2 (by omega)
  have hbound : ∀ k, k < 50 → 0 + k * (responses.length / 50) < responses.length := by
    intro k hk
    have h1 : k * (responses.length / 50) ≤ 49 * (responses.length / 50) :=
      Nat.mul_le_mul_right _ (by omega)
    have h2 : (responses.length / 50) * 50 ≤ responses.length := Nat.div_mul_le_self _ _
    have h3 : 49 * (responses.length / 50) + (responses.length / 50)
        ≤ responses.length := by
      have h4 : (responses.length / 50) * 50
          = 49 * (responses.length / 50) + (responses.length / 50) := by ring
      omega
    omega
  rw [strideLoop_eq responses responses.length (responses.length / 50) 50 0 hbound]
  simp

/-- C6 (corrected): when `IdentifyThemes` receives more than the sample cap
of 50 responses, the subset inserted into the theme-identification prompt is
the evenly-strided deterministic sample of exactly 50 responses at indices
`0, stride, 2·stride, …` with `stride = count / 50` (integer division), and
never more than 50 responses — but, contrary to the original claim, when
`50 < count < 100` the stride is 1, so the sample in that case IS simply the
first 50 responses. -/
theorem c6_identify_sampling_strided (responses : List String)
    (h : responses.length > 50) :
    sampleResponses responses
      = (List.range 50).map (fun k =>
          responses.getD (k * (responses.length / 50)) "")
    ∧ (sampleResponses responses).length ≤ 50 := by
  refine ⟨sampleResponses_eq_strided responses h, ?_⟩
  rw [sampleResponses_eq_strided responses h]
  simp

/-- C6 witness: with 150 responses the sample is the stride-3 selection. -/
theorem c6_identify_sampling_strided_witness :
    ((List.range 150).map toString).length > 50 ∧
      (sampleResponses ((List.range 150).map toString)
        = (List.range 50).map (fun k => ((List.range 150).map toString).getD
            (k * (((List.range 150).map toString).length / 50)) "")
      ∧ (sampleResponses ((List.range 150).map toString)).length ≤ 50) :=
  ⟨by decide, c6_identify_sampling_strided _ (by decide)⟩

/-- C6 counterexample: with 51 responses the stride is `51 / 50 = 1` and the
selected sample is exactly the first 50 responses, contradicting the claim's
"never simply the first 50 responses". -/
theorem c6_identify_sampling_counterexample :
    sampleResponses ((List.range 51).map toString)
      = ((List.range 51).map toString).take 50 := by decide

/-! ### C7: output-language directive in prompt construction -/

theorem getLanguageInstructions_empty : getLanguageInstructions "" = "" := rfl

theorem matchSinglePromptOf_eq (lang response : String) (themes : List String) :
    matchSinglePromptOf lang response themes
      = matchSinglePromptOf "" response themes
        ++ (if getLanguageInstructions lang ≠ "" then
              " " ++ getLanguageInstructions lang else "") := by
  unfold matchSinglePromptOf
  by_cases h : getLanguageInstructions lang = ""
  · simp [h, getLanguageInstructions_empty]
  · simp [h, getLanguageInstructions_empty, String.append_assoc]

theorem batchPromptOf_eq (lang : String) (responses themes : List String) :
    batchPromptOf lang responses themes
      = batchPromptOf "" responses themes
        ++ (if getLanguageInstructions lang ≠ "" then
              getLanguageInstructions lang ++ "\n" else "") := by
  unfold batchPromptOf
  by_cases h : getLanguageInstructions lang = ""
  · simp [h, getLanguageInstructions_empty]
  · simp [h, getLanguageInstructions_empty, String.append_assoc]

theorem identifyThemesPromptOf_eq (lang : String) (responses : List String) :
    identifyThemesPromptOf lang responses
      = identifyThemesPromptOf "" responses
        ++ (if getLanguageInstructions lang ≠ "" then
              " " ++ getLanguageInstructions lang else "") := by
  unfold identifyThemesPromptOf
  by_cases h : getLanguageInstructions lang = ""
  · simp [h, getLanguageInstructions_empty]
  · simp [h, getLanguageInstructions_empty, String.append_assoc]

theorem themeSummaryPromptOf_eq (lang theme : String) (responses : List String) :
    themeSummaryPromptOf lang theme responses
      = themeSummaryPromptOf "" theme responses
        ++ (if getLanguageInstructions lang ≠ "" then
              "\n" ++ getLanguageInstructions lang else "") := by
  unfold themeSummaryPromptOf
  by_cases h : getLanguageInstructions lang = ""
  · simp [h, getLanguageInstructions_empty]
  · simp [h, getLanguageInstructions_empty, String.append_assoc]

theorem globalSummaryPromptOf_eq (lang : String)
    (themeSummaries : List (String × ThemeSummary)) (summaryLength : Int) :
    globalSummaryPromptOf lang themeSummaries summaryLength
      = globalSummaryPromptOf "" themeSummaries summaryLength
        ++ (if getLanguageInstructions lang ≠ "" then
              " " ++ getLanguageInstructions lang else "") := by
  unfold globalSummaryPromptOf
  by_cases h : getLanguageInstructions lang = ""
  · simp [h, getLanguageInstructions_empty]
  · simp [h, getLanguageInstructions_empty, String.append_assoc]

/-- C7 (corrected): the configured output language is turned into a fixed
natural-language instruction appended to EVERY prompt the client builds —
the summary prompts (theme and global), the theme-identification prompt,
and, contrary to the original claim, also the theme-matching prompts
(single and batch); an unrecognized language code yields no instruction, so
all prompts then coincide with the instruction-free prompt. -/
theorem c7_language_directive (outputLanguage response theme : String)
    (themes responses : List String)
    (themeSummaries : List (String × ThemeSummary)) (summaryLength : Int) :
    (matchSinglePromptOf outputLanguage response themes
       = matchSinglePromptOf "" response themes
         ++ (if getLanguageInstructions outputLanguage ≠ "" then
               " " ++ getLanguageInstructions outputLanguage else ""))
    ∧ (batchPromptOf outputLanguage responses themes
       = batchPromptOf "" responses themes
         ++ (if getLanguageInstructions outputLanguage ≠ "" then
               getLanguageInstructions outputLanguage ++ "\n" else ""))
    ∧ (identifyThemesPromptOf outputLanguage responses
       = identifyThemesPromptOf "" responses
         ++ (if getLanguageInstructions outputLanguage ≠ "" then
               " " ++ getLanguageInstructions outputLanguage else ""))
    ∧ (themeSummaryPromptOf outputLanguage theme responses
       = themeSummaryPromptOf "" theme responses
         ++ (if getLanguageInstructions outputLanguage ≠ "" then
               "\n" ++ getLanguageInstructions outputLanguage else ""))
    ∧ (globalSummaryPromptOf outputLanguage themeSummaries summaryLength
       = globalSummaryPromptOf "" themeSummaries summaryLength
         ++ (if getLanguageInstructions outputLanguage ≠ "" then
               " " ++ getLanguageInstructions outputLanguage else ""))
    ∧ (outputLanguage ∉ (["de-ch", "de", "fr", "it"] : List String) →
        getLanguageInstructions outputLanguage = "") :=
  ⟨matchSinglePromptOf_eq .., batchPromptOf_eq .., identifyThemesPromptOf_eq ..,
   themeSummaryPromptOf_eq .., globalSummaryPromptOf_eq .., by
    intro h
    simp only [List.mem_cons, List.mem_singleton, not_or] at h
    obtain ⟨h1, h2, h3, h4⟩ := h
    simp [getLanguageInstructions, h1, h2, h3, h4]⟩

/-- C7 witness: for the unrecognized code `xx` no instruction is appended
anywhere, and for `de` the fixed German instruction is appended. -/
theorem c7_language_directive_witness :
    (matchSinglePromptOf "xx" "resp" ["t"]
       = matchSinglePromptOf "" "resp" ["t"]
         ++ (if getLanguageInstructions "xx" ≠ "" then
               " " ++ getLanguageInstructions "xx" else ""))
    ∧ (getLanguageInstructions "xx" = "") :=
  ⟨(c7_language_directive "xx" "resp" "th" ["t"] ["r"] [] 1).1,
   (c7_language_directive "xx" "resp" "th" ["t"] ["r"] [] 1).2.2.2.2.2 (by decide)⟩

/-- C7 counterexample: with output language `de` the theme-matching prompts
(single and batch) DO carry the language instruction, contradicting the
claim that matching prompts are exempt. -/
theorem c7_language_directive_counterexample :
    matchSinglePromptOf "de" "resp" ["t"]
      = matchSinglePromptOf "" "resp" ["t"] ++ " " ++ "Respond in German."
    ∧ batchPromptOf "de" ["resp"] ["t"]
      = batchPromptOf "" ["resp"] ["t"] ++ "Respond in German." ++ "\n" := by
  constructor <;> rfl

/-! ### C5: rate-limit retry with exponential backoff in `GetCompletion` -/

/-- C5 (corrected): on throttling (HTTP 429) responses `GetCompletion`
retries at most 3 times, sleeping `base·2^k` before the k-th retry (backoff
delays `base`, `2·base`, `4·base`), and a fourth consecutive throttling
response makes the call fail with the upstream 429 error; on three
consecutive throttling responses followed by a success the call succeeds
with exactly 4 requests sent.  Contrary to the original claim, the total
elapsed wait is NOT `base + 2·base + 4·base`: the unconditional rate-limit
delay of `base` slept before the first request makes the total
`base + (base + 2·base + 4·base) = 8·base`. -/
theorem c5_backoff (model : String) (base : Nat) (persistResult : Except String Unit)
    (st : ClientState) (now : Nat) (m1 m2 m3 m4 text : String)
    (inputTokens outputTokens : Nat) (rest : List ApiResponse)
    (prompt systemPrompt : String) (maxTokens : Int)
    (hbase : 0 < base) (hcache : st.cache = none) :
    ((GetCompletion model base persistResult st now
        (.tooManyRequests m1 :: .tooManyRequests m2 :: .tooManyRequests m3 ::
          .ok text inputTokens outputTokens :: rest)
        prompt systemPrompt maxTokens).result = .ok text
      ∧ (GetCompletion model base persistResult st now
          (.tooManyRequests m1 :: .tooManyRequests m2 :: .tooManyRequests m3 ::
            .ok text inputTokens outputTokens :: rest)
          prompt systemPrompt maxTokens).totalSleep
        = base + (base + 2 * base + 4 * base)
      ∧ (GetCompletion model base persistResult st now
          (.tooManyRequests m1 :: .tooManyRequests m2 :: .tooManyRequests m3 ::
            .ok text inputTokens outputTokens :: rest)
          prompt systemPrompt maxTokens).requestsSent = 4)
    ∧ ((GetCompletion model base persistResult st now
          (.tooManyRequests m1 :: .tooManyRequests m2 :: .tooManyRequests m3 ::
            .tooManyRequests m4 :: rest)
          prompt systemPrompt maxTokens).result
        = .error ("Claude API request failed with status 429: " ++ m4)
      ∧ (GetCompletion model base persistResult st now
          (.tooManyRequests m1 :: .tooManyRequests m2 :: .tooManyRequests m3 ::
            .tooManyRequests m4 :: rest)
          prompt systemPrompt maxTokens).totalSleep
        = base + (base + 2 * base + 4 * base)
      ∧ (GetCompletion model base persistResult st now
          (.tooManyRequests m1 :: .tooManyRequests m2 :: .tooManyRequests m3 ::
            .tooManyRequests m4 :: rest)
          prompt systemPrompt maxTokens).requestsSent = 4) := by
  unfold GetCompletion
  rw [hcache]
  simp only [hbase, if_pos, getCompletionLoop, maxRetries]
  norm_num [getCompletionLoop, maxRetries, pow_succ, pow_zero]
  repeat' constructor
  all_goals first
  | exact String.append_empty _
  | ring1
  | rfl

/-- C5 witness: with `base = 1`, three 429s then a success succeed after 4
requests with total sleep `1 + (1 + 2 + 4) = 8`. -/
theorem c5_backoff_witness :
    ((GetCompletion "m" 1 (.ok ()) ⟨none, 0, 0⟩ 0
        (.tooManyRequests "a" :: .tooManyRequests "b" :: .tooManyRequests "c" ::
          .ok "T" 10 20 :: []) "p" "s" 4096).result = .ok "T"
      ∧ (GetCompletion "m" 1 (.ok ()) ⟨none, 0, 0⟩ 0
          (.tooManyRequests "a" :: .tooManyRequests "b" :: .tooManyRequests "c" ::
            .ok "T" 10 20 :: []) "p" "s" 4096).totalSleep = 1 + (1 + 2 * 1 + 4 * 1)
      ∧ (GetCompletion "m" 1 (.ok ()) ⟨none, 0, 0⟩ 0
          (.tooManyRequests "a" :: .tooManyRequests "b" :: .tooManyRequests "c" ::
            .ok "T" 10 20 :: []) "p" "s" 4096).requestsSent = 4)
    ∧ ((GetCompletion "m" 1 (.ok ()) ⟨none, 0, 0⟩ 0
          (.tooManyRequests "a" :: .tooManyRequests "b" :: .tooManyRequests "c" ::
            .tooManyRequests "d" :: []) "p" "s" 4096).result
        = .error ("Claude API request failed with status 429: " ++ "d")
      ∧ (GetCompletion "m" 1 (.ok ()) ⟨none, 0, 0⟩ 0
          (.tooManyRequests "a" :: .tooManyRequests "b" :: .tooManyRequests "c" ::
            .tooManyRequests "d" :: []) "p" "s" 4096).totalSleep = 1 + (1 + 2 * 1 + 4 * 1)
      ∧ (GetCompletion "m" 1 (.ok ()) ⟨none, 0, 0⟩ 0
          (.tooManyRequests "a" :: .tooManyRequests "b" :: .tooManyRequests "c" ::
            .tooManyRequests "d" :: []) "p" "s" 4096).requestsSent = 4) :=
  c5_backoff "m" 1 (.ok ()) ⟨none, 0, 0⟩ 0 "a" "b" "c" "d" "T" 10 20 []
    "p" "s" 4096 (by decide) rfl

/-- C5 counterexample: with `base = 1` and three throttling responses
followed by a success, the call does succeed, but the total time slept is 8,
not `base + 2·base + 4·base = 7` as the claim states: the initial rate-limit
delay is also slept. -/
theorem c5_backoff_counterexample :
    (GetCompletion "m" 1 (.ok ()) ⟨none, 0, 0⟩ 0
        (.tooManyRequests "a" :: .tooManyRequests "b" :: .tooManyRequests "c" ::
          .ok "T" 10 20 :: []) "p" "s" 4096).result = .ok "T"
    ∧ (GetCompletion "m" 1 (.ok ()) ⟨none, 0, 0⟩ 0
        (.tooManyRequests "a" :: .tooManyRequests "b" :: .tooManyRequests "c" ::
          .ok "T" 10 20 :: []) "p" "s" 4096).totalSleep ≠ 1 + 2 * 1 + 4 * 1 := by
  constructor
  · rfl
  · decide

/-! ### C9: persistence failure on `Cache.Set` does not evict the entry -/

/-- C9: when persisting a cache entry to disk fails, `Cache.Set` reports the
error to its caller, but the entry was already stored in the in-memory
index: a subsequent `Get` with the same key before TTL expiry still returns
the value as a cache hit. -/
theorem c9_cache_set_failure (c : Cache) (pe : String) (now later : Nat)
    (key value : String) (hp : c.persisted = true)
    (hexp : ¬ later > now + c.ttl) :
    (cacheSet c (.error pe) now key value).2
      = .error s!"failed to persist cache entry: {pe}"
    ∧ (cacheGet (cacheSet c (.error pe) now key value).1 later key).2
      = some value := by
  constructor
  · simp [cacheSet, hp]
  · simp [cacheSet, cacheGet, hp, mlookup_minsert_self, hexp]

/-- C9 witness: a failing disk write still leaves the value retrievable. -/
theorem c9_cache_set_failure_witness :
    (cacheSet ⟨[], 10, true⟩ (.error "disk full") 0 "k" "v").2
      = .error "failed to persist cache entry: disk full"
    ∧ (cacheGet (cacheSet ⟨[], 10, true⟩ (.error "disk full") 0 "k" "v").1 5 "k").2
      = some "v" :=
  c9_cache_set_failure ⟨[], 10, true⟩ "disk full" 0 5 "k" "v" rfl (by decide)

/-! ### C10: a cache hit in `GetCompletion` is effect-free -/

/-- C10: when the cache key derived from model, system prompt, max tokens
and prompt is present and unexpired, `GetCompletion` returns the cached
value immediately: no HTTP request is sent, no rate-limit delay is slept,
and the client's running `totalCost` and `totalTokens` accumulators (and
the cache itself) are left unchanged. -/
theorem c10_cache_hit_frame (model : String) (rateLimitDelay : Nat)
    (persistResult : Except String Unit) (c : Cache) (totalCost : ℚ)
    (totalTokens now : Nat) (api : List ApiResponse)
    (prompt systemPrompt : String) (maxTokens : Int) (entry : CacheEntry)
    (hfound : mlookup (hashKey s!"{model}:{systemPrompt}:{maxTokens}:{prompt}")
      c.entries = some entry)
    (hfresh : ¬ now > entry.ExpiresAt) :
    GetCompletion model rateLimitDelay persistResult
        ⟨some c, totalCost, totalTokens⟩ now api prompt systemPrompt maxTokens
      = { result := .ok entry.Value,
          state := ⟨some c, totalCost, totalTokens⟩,
          totalSleep := 0, requestsSent := 0 } := by
  simp [GetCompletion, cacheGet, hfound, hfresh]

/-- C10 witness: a concrete cache hit returns the cached value with zero
requests, zero sleep and unchanged accumulators. -/
theorem c10_cache_hit_frame_witness :
    GetCompletion "m" 1 (.ok ()) ⟨some ⟨[("m:s:100:p", ⟨"m:s:100:p", "v", 0, 10⟩)], 10, false⟩, 3, 7⟩
        5 [.ok "fresh" 1 1] "p" "s" 100
      = { result := .ok "v",
          state := ⟨some ⟨[("m:s:100:p", ⟨"m:s:100:p", "v", 0, 10⟩)], 10, false⟩, 3, 7⟩,
          totalSleep := 0, requestsSent := 0 } :=
  c10_cache_hit_frame "m" 1 (.ok ()) ⟨[("m:s:100:p", ⟨"m:s:100:p", "v", 0, 10⟩)], 10, false⟩
    3 7 5 [.ok "fresh" 1 1] "p" "s" 100 ⟨"m:s:100:p", "v", 0, 10⟩ (by decide) (by decide)

/-! ### C8: aggregation invariant of `BuildThemeAnalyses` and the
empty-theme skip of `GenerateThemeSummaries` -/

theorem addTheme_lookup_none (id t T : String) (m : List (String × ThemeAnalysis))
    (h : mlookup T m = none) : mlookup T (addTheme id m t) = none := by
  unfold addTheme
  cases ht : mlookup t m with
  | none => exact h
  | some ta =>
    have hne : t ≠ T := by
      intro he; rw [he, h] at ht; cases ht
    rw [mlookup_minsert_ne _ _ _ _ hne]
    exact h

theorem innerFold_lookup_none (id T : String) (ts : List String)
    (m : List (String × ThemeAnalysis)) (h : mlookup T m = none) :
    mlookup T (ts.foldl (addTheme id) m) = none := by
  induction ts generalizing m with
  | nil => exact h
  | cons t rest ih =>
    rw [List.foldl_cons]
    exact ih _ (addTheme_lookup_none id t T m h)

theorem innerFold_lookup_some (id T : String) (ts : List String)
    (m : List (String × ThemeAnalysis)) (l : List String)
    (h : mlookup T m = some ⟨T, l⟩) :
    ∃ l', mlookup T (ts.foldl (addTheme id) m) = some ⟨T, l'⟩ ∧
      ∀ x, x ∈ l' ↔ x ∈ l ∨ (x = id ∧ T ∈ ts) := by
  induction ts generalizing m l with
  | nil =>
    refine ⟨l, h, ?_⟩
    simp
  | cons t rest ih =>
    rw [List.foldl_cons]
    by_cases ht : t = T
    · subst ht
      have : addTheme id m t = minsert t ⟨t, l ++ [id]⟩ m := by
        unfold addTheme
        rw [h]
      rw [this]
      obtain ⟨l', hl', hmem⟩ := ih (minsert t ⟨t, l ++ [id]⟩ m) (l ++ [id])
        (mlookup_minsert_self ..)
      refine ⟨l', hl', ?_⟩
      intro x
      rw [hmem x]
      simp only [List.mem_append, List.mem_singleton, List.mem_cons]
      tauto
    · have hT : mlookup T (addTheme id m t) = some ⟨T, l⟩ := by
        unfold addTheme
        cases hm : mlookup t m with
        | none => exact h
        | some ta => rw [mlookup_minsert_ne _ _ _ _ ht]; exact h
      obtain ⟨l', hl', hmem⟩ := ih (addTheme id m t) l hT
      refine ⟨l', hl', ?_⟩
      intro x
      rw [hmem x]
      simp only [List.mem_cons]
      constructor
      · rintro (hx | ⟨hx, hxt⟩)
        · exact Or.inl hx
        · exact Or.inr ⟨hx, Or.inr hxt⟩
      · rintro (hx | ⟨hx, ht2 | hxt⟩)
        · exact Or.inl hx
        · exact absurd ht2.symm ht
        · exact Or.inr ⟨hx, hxt⟩

theorem outerFold_lookup_none (T : String)
    (ra : List (String × ResponseAnalysis)) (m : List (String × ThemeAnalysis))
    (h : mlookup T m = none) :
    mlookup T (ra.foldl (fun result p => p.2.Themes.foldl (addTheme p.1) result) m)
      = none := by
  induction ra generalizing m with
  | nil => exact h
  | cons p rest ih =>
    rw [List.foldl_cons]
    exact ih _ (innerFold_lookup_none p.1 T p.2.Themes m h)

theorem outerFold_lookup_some (T : String)
    (ra : List (String × ResponseAnalysis)) (m : List (String × ThemeAnalysis))
    (l : List String) (h : mlookup T m = some ⟨T, l⟩) :
    ∃ l', mlookup T
        (ra.foldl (fun result p => p.2.Themes.foldl (addTheme p.1) result) m)
        = some ⟨T, l'⟩ ∧
      ∀ x, x ∈ l' ↔ x ∈ l ∨ ∃ p ∈ ra, p.1 = x ∧ T ∈ p.2.Themes := by
  induction ra generalizing m l with
  | nil =>
    refine ⟨l, h, ?_⟩
    simp
  | cons p rest ih =>
    rw [List.foldl_cons]
    obtain ⟨l₁, hl₁, hmem₁⟩ := innerFold_lookup_some p.1 T p.2.Themes m l h
    obtain ⟨l', hl', hmem⟩ := ih _ l₁ hl₁
    refine ⟨l', hl', ?_⟩
    intro x
    rw [hmem x]
    simp only [hmem₁ x, List.mem_cons]
    constructor
    · rintro ((hx | ⟨hx, hxt⟩) | ⟨q, hq, hqx, hqt⟩)
      · exact Or.inl hx
      · exact Or.inr ⟨p, Or.inl rfl, hx.symm ▸ rfl, hxt⟩
      · exact Or.inr ⟨q, Or.inr hq, hqx, hqt⟩
    · rintro (hx | ⟨q, hq | hq, hqx, hqt⟩)
      · exact Or.inl (Or.inl hx)
      · subst hq; exact Or.inl (Or.inr ⟨hqx.symm, hqt⟩)
      · exact Or.inr ⟨q, hq, hqx, hqt⟩

theorem initThemes_lookup (T : String) (themes : List String) :
    ∀ acc : List (String × ThemeAnalysis),
      mlookup T (themes.foldl (fun m theme => minsert theme ⟨theme, []⟩ m) acc)
        = if T ∈ themes then some ⟨T, []⟩ else mlookup T acc := by
  induction themes with
  | nil => intro acc; simp
  | cons t rest ih =>
    intro acc
    rw [List.foldl_cons, ih]
    by_cases hr : T ∈ rest
    · simp [hr]
    · by_cases ht : t = T
      · subst ht
        simp [hr, mlookup_minsert_self]
      · have : ¬ T = t := fun he => ht he.symm
        simp [hr, this, mlookup_minsert_ne _ _ _ _ ht]

/-- The characterization of `BuildThemeAnalyses`: present themes map to
exactly the ids whose analysis mentions them; absent themes have no entry. -/
theorem buildThemeAnalyses_lookup (T : String)
    (ra : List (String × ResponseAnalysis)) (themes : List String) :
    (T ∈ themes → ∃ l, mlookup T (BuildThemeAnalyses ra themes) = some ⟨T, l⟩ ∧
      ∀ x, x ∈ l ↔ ∃ p ∈ ra, p.1 = x ∧ T ∈ p.2.Themes)
    ∧ (T ∉ themes → mlookup T (BuildThemeAnalyses ra themes) = none) := by
  constructor
  · intro hT
    have hinit := initThemes_lookup T themes []
    rw [if_pos hT] at hinit
    obtain ⟨l', hl', hmem⟩ := outerFold_lookup_some T ra _ [] hinit
    refine ⟨l', hl', ?_⟩
    intro x
    rw [hmem x]
    simp
  · intro hT
    have hinit := initThemes_lookup T themes []
    rw [if_neg hT] at hinit
    simp only [mlookup] at hinit
    exact outerFold_lookup_none T ra _ hinit

theorem minsert_nodup_keys (k : String) (v : α) (m : List (String × α))
    (h : (m.map Prod.fst).Nodup) : ((minsert k v m).map Prod.fst).Nodup := by
  rw [minsert_keys]
  by_cases hm : k ∈ m.map Prod.fst
  · simpa [hm] using h
  · simp only [hm, if_false]
    rw [List.nodup_append]
    refine ⟨h, List.nodup_singleton _, ?_⟩
    intro a ha hb
    rw [List.mem_singleton] at hb
    subst hb
    exact hm ha

theorem addTheme_nodup_keys (id t : String) (m : List (String × ThemeAnalysis))
    (h : (m.map Prod.fst).Nodup) : ((addTheme id m t).map Prod.fst).Nodup := by
  unfold addTheme
  cases mlookup t m with
  | none => exact h
  | some ta => exact minsert_nodup_keys _ _ _ h

theorem buildThemeAnalyses_nodup_keys (ra : List (String × ResponseAnalysis))
    (themes : List String) :
    ((BuildThemeAnalyses ra themes).map Prod.fst).Nodup := by
  unfold BuildThemeAnalyses
  have hinit : ∀ acc : List (String × ThemeAnalysis), (acc.map Prod.fst).Nodup →
      (((themes.foldl (fun m theme => minsert theme ⟨theme, []⟩ m) acc)).map
        Prod.fst).Nodup := by
    induction themes with
    | nil => intro acc h; exact h
    | cons t rest ih =>
      intro acc h
      rw [List.foldl_cons]
      exact ih _ (minsert_nodup_keys _ _ _ h)
  have hinner : ∀ (id : String) (ts : List String)
      (m : List (String × ThemeAnalysis)), (m.map Prod.fst).Nodup →
      (((ts.foldl (addTheme id) m)).map Prod.fst).Nodup := by
    intro id ts
    induction ts with
    | nil => intro m h; exact h
    | cons t rest ih =>
      intro m h
      rw [List.foldl_cons]
      exact ih _ (addTheme_nodup_keys id t m h)
  have houter : ∀ (l : List (String × ResponseAnalysis))
      (m : List (String × ThemeAnalysis)), (m.map Prod.fst).Nodup →
      (((l.foldl (fun result p => p.2.Themes.foldl (addTheme p.1) result) m)).map
        Prod.fst).Nodup := by
    intro l
    induction l with
    | nil => intro m h; exact h
    | cons p rest ih =>
      intro m h
      rw [List.foldl_cons]
      exact ih _ (hinner p.1 p.2.Themes m h)
  exact houter ra _ (hinit [] (by simp))

theorem genThemeSummaries_skip (o : Oracle) (outputLanguage : String)
    (ra : List (String × ResponseAnalysis)) (themeSummaryPrompt : String)
    (T : String) :
    ∀ (ta : List (String × ThemeAnalysis)) (acc sm : List (String × ThemeSummary))
      (ev : List CallEvent),
      GenerateThemeSummaries o outputLanguage ra themeSummaryPrompt ta acc
        = (.ok sm, ev) →
      (∀ a, (T, a) ∈ ta → a.Responses = []) →
      mlookup T acc = none →
      mlookup T sm = none := by
  intro ta
  induction ta with
  | nil =>
    intro acc sm ev h hall hacc
    simp only [GenerateThemeSummaries, Prod.mk.injEq] at h
    have hsm : acc = sm := by injection h.1
    rw [← hsm]
    exact hacc
  | cons q rest ih =>
    intro acc sm ev h hall hacc
    obtain ⟨θ, a⟩ := q
    by_cases hlen : a.Responses.length = 0
    · simp only [GenerateThemeSummaries, hlen, if_pos] at h
      exact ih acc sm ev h (fun a' ha' => hall a' (List.mem_cons_of_mem _ ha')) hacc
    · have hθT : θ ≠ T := by
        intro he
        subst he
        exact hlen (by rw [hall a (List.mem_cons_self ..)]; rfl)
      simp only [GenerateThemeSummaries, hlen, if_neg, if_false] at h
      cases hcl : clientGenerateThemeSummary o outputLanguage θ
          (a.Responses.filterMap (fun id =>
            (mlookup id ra).map (fun an => an.Response.Text)))
          themeSummaryPrompt with
      | mk res ev1 =>
        cases res with
        | error e =>
          rw [hcl] at h
          simp at h
        | ok completion =>
          rw [hcl] at h
          simp only [] at h
          cases hrec : GenerateThemeSummaries o outputLanguage ra themeSummaryPrompt
              rest (minsert θ ⟨(extractSummaryAndIdeas completion).1,
                (extractSummaryAndIdeas completion).2⟩ acc) with
          | mk res2 ev2 =>
            rw [hrec] at h
            simp only [Prod.mk.injEq] at h
            have hres : res2 = .ok sm := h.1
            have : mlookup T (minsert θ ⟨(extractSummaryAndIdeas completion).1,
                (extractSummaryAndIdeas completion).2⟩ acc) = none := by
              rw [mlookup_minsert_ne _ _ _ _ hθT]
              exact hacc
            exact ih _ sm ev2 (by rw [hrec, hres])
              (fun a' ha' => hall a' (List.mem_cons_of_mem _ ha')) this

/-- C8: for every theme `T` in the run's theme list, the built
`themeAnalyses[T]` holds exactly the response ids whose analysis mentions
`T`; a theme name appearing in a `ResponseAnalysis` but absent from the
theme list creates no entry during aggregation; and a theme whose matched
response set is empty never receives an entry in the generated theme
summaries. -/
theorem c8_aggregation_invariant (o : Oracle) (outputLanguage : String)
    (ra : List (String × ResponseAnalysis)) (themes : List String)
    (themeSummaryPrompt : String) (T : String)
    (hnd : (ra.map Prod.fst).Nodup) :
    (T ∈ themes → ∃ l, mlookup T (BuildThemeAnalyses ra themes) = some ⟨T, l⟩ ∧
        ∀ id, (id ∈ l ↔ ∃ a, mlookup id ra = some a ∧ T ∈ a.Themes))
    ∧ (T ∉ themes → mlookup T (BuildThemeAnalyses ra themes) = none)
    ∧ (∀ ta sm ev, mlookup T (BuildThemeAnalyses ra themes) = some ta →
        ta.Responses = [] →
        GenerateThemeSummaries o outputLanguage ra themeSummaryPrompt
          (BuildThemeAnalyses ra themes) [] = (.ok sm, ev) →
        mlookup T sm = none) := by
  obtain ⟨h1, h2⟩ := buildThemeAnalyses_lookup T ra themes
  refine ⟨?_, h2, ?_⟩
  · intro hT
    obtain ⟨l, hl, hmem⟩ := h1 hT
    refine ⟨l, hl, ?_⟩
    intro id
    rw [hmem id]
    constructor
    · rintro ⟨p, hp, hpid, hpT⟩
      refine ⟨p.2, ?_, hpT⟩
      apply mlookup_eq_some_of_mem hnd
      rw [← hpid]
      exact hp
    · rintro ⟨a, ha, haT⟩
      exact ⟨(id, a), mem_of_mlookup_eq_some ha, rfl, haT⟩
  · intro ta sm ev hta htaEmpty hgen
    apply genThemeSummaries_skip o outputLanguage ra themeSummaryPrompt T
      (BuildThemeAnalyses ra themes) [] sm ev hgen ?_ (by simp [mlookup])
    intro a ha
    have := mlookup_eq_some_of_mem (buildThemeAnalyses_nodup_keys ra themes) ha
    rw [hta] at this
    injection this with h3
    rw [← h3]
    exact htaEmpty

/-- C8 witness: two themes, one matched response; `t1` collects exactly
`r1`, the unknown theme `zz` gets no entry, and the empty theme `t2`
receives no summary entry. -/
theorem c8_aggregation_invariant_witness :
    ("t2" ∈ ["t1", "t2"] → ∃ l,
        mlookup "t2" (BuildThemeAnalyses
          [("r1", ⟨⟨"r1", "x", 0, "h"⟩, ["t1", "zz"], 3⟩)] ["t1", "t2"])
          = some ⟨"t2", l⟩ ∧
        ∀ id, (id ∈ l ↔ ∃ a,
          mlookup id [("r1", (⟨⟨"r1", "x", 0, "h"⟩, ["t1", "zz"], 3⟩ : ResponseAnalysis))]
            = some a ∧ "t2" ∈ a.Themes))
    ∧ ("t2" ∉ ["t1", "t2"] → mlookup "t2" (BuildThemeAnalyses
          [("r1", ⟨⟨"r1", "x", 0, "h"⟩, ["t1", "zz"], 3⟩)] ["t1", "t2"]) = none)
    ∧ (∀ ta sm ev, mlookup "t2" (BuildThemeAnalyses
          [("r1", ⟨⟨"r1", "x", 0, "h"⟩, ["t1", "zz"], 3⟩)] ["t1", "t2"]) = some ta →
        ta.Responses = [] →
        GenerateThemeSummaries ⟨fun _ _ => .ok "SUMMARY: s"⟩ "" 
          [("r1", ⟨⟨"r1", "x", 0, "h"⟩, ["t1", "zz"], 3⟩)] "tsp"
          (BuildThemeAnalyses
            [("r1", ⟨⟨"r1", "x", 0, "h"⟩, ["t1", "zz"], 3⟩)] ["t1", "t2"]) []
          = (.ok sm, ev) →
        mlookup "t2" sm = none) :=
  c8_aggregation_invariant ⟨fun _ _ => .ok "SUMMARY: s"⟩ ""
    [("r1", ⟨⟨"r1", "x", 0, "h"⟩, ["t1", "zz"], 3⟩)] ["t1", "t2"] "tsp" "t2"
    (by decide)

/-! ### Shared matcher infrastructure for C2, C3, C4 -/

/-- The dirty responses of a run (spec glossary): new id or changed hash. -/
def dirtyResponses (responses : List Response)
    (previousAnalyses : List (String × ResponseAnalysis)) : List Response :=
  responses.filter (fun r => ! isUnchanged previousAnalyses r)

/-- The `(id, prior analysis)` pairs reused for unchanged responses, in
response order. -/
def reusedPairs (responses : List Response)
    (previousAnalyses : List (String × ResponseAnalysis)) :
    List (String × ResponseAnalysis) :=
  responses.filterMap (fun r =>
    match mlookup r.ID previousAnalyses with
    | some previousAnalysis =>
      if previousAnalysis.Response.Hash = r.Hash then some (r.ID, previousAnalysis)
      else none
    | none => none)

theorem partitionFold_spec (previousAnalyses : List (String × ResponseAnalysis)) :
    ∀ (responses : List Response) (accm : List (String × ResponseAnalysis))
      (accl : List Response),
      responses.foldl (fun acc r =>
        match mlookup r.ID previousAnalyses with
        | some previousAnalysis =>
          if previousAnalysis.Response.Hash = r.Hash then
            (minsert r.ID previousAnalysis acc.1, acc.2)
          else (acc.1, acc.2 ++ [r])
        | none => (acc.1, acc.2 ++ [r])) (accm, accl)
      = (mergePairs (reusedPairs responses previousAnalyses) accm,
         accl ++ dirtyResponses responses previousAnalyses) := by
  intro responses
  induction responses with
  | nil => intro accm accl; simp [reusedPairs, dirtyResponses, mergePairs]
  | cons r rest ih =>
    intro accm accl
    rw [List.foldl_cons]
    cases hml : mlookup r.ID previousAnalyses with
    | some pa =>
      by_cases hh : pa.Response.Hash = r.Hash
      · simp only [hml, hh, if_pos]
        rw [ih]
        have h1 : reusedPairs (r :: rest) previousAnalyses
            = (r.ID, pa) :: reusedPairs rest previousAnalyses := by
          simp [reusedPairs, List.filterMap_cons, hml, hh]
        have h2 : dirtyResponses (r :: rest) previousAnalyses
            = dirtyResponses rest previousAnalyses := by
          simp [dirtyResponses, isUnchanged, hml, hh]
        rw [h1, h2]
        rfl
      · simp only [hml, hh, if_neg, if_false]
        rw [ih]
        have h1 : reusedPairs (r :: rest) previousAnalyses
            = reusedPairs rest previousAnalyses := by
          simp [reusedPairs, List.filterMap_cons, hml, hh]
        have h2 : dirtyResponses (r :: rest) previousAnalyses
            = r :: dirtyResponses rest previousAnalyses := by
          simp [dirtyResponses, isUnchanged, hml, hh]
        rw [h1, h2]
        simp
    | none =>
      simp only [hml]
      rw [ih]
      have h1 : reusedPairs (r :: rest) previousAnalyses
          = reusedPairs rest previousAnalyses := by
        simp [reusedPairs, List.filterMap_cons, hml]
      have h2 : dirtyResponses (r :: rest) previousAnalyses
          = r :: dirtyResponses rest previousAnalyses := by
        simp [dirtyResponses, isUnchanged, hml]
      rw [h1, h2]
      simp

theorem partitionResponses_eq (responses : List Response)
    (previousAnalyses : List (String × ResponseAnalysis)) :
    partitionResponses responses previousAnalyses
      = (mergePairs (reusedPairs responses previousAnalyses) [],
         dirtyResponses responses previousAnalyses) := by
  unfold partitionResponses
  have := partitionFold_spec previousAnalyses responses [] []
  simpa using this

theorem reusedPairs_keys_sublist (responses : List Response)
    (previousAnalyses : List (String × ResponseAnalysis)) :
    ((reusedPairs responses previousAnalyses).map Prod.fst).Sublist
      (responses.map Response.ID) := by
  induction responses with
  | nil => simp [reusedPairs]
  | cons r rest ih =>
    rw [reusedPairs, List.filterMap_cons]
    cases hml : mlookup r.ID previousAnalyses with
    | some pa =>
      by_cases hh : pa.Response.Hash = r.Hash
      · simp only [hml, hh, if_pos]
        exact List.Sublist.cons₂ _ ih
      · simp only [hml, hh, if_neg, if_false]
        exact List.Sublist.cons _ ih
    | none =>
      simp only [hml]
      exact List.Sublist.cons _ ih

theorem mem_reusedPairs {responses : List Response}
    {previousAnalyses : List (String × ResponseAnalysis)} {r : Response}
    {pa : ResponseAnalysis} (hr : r ∈ responses)
    (hprev : mlookup r.ID previousAnalyses = some pa)
    (hhash : pa.Response.Hash = r.Hash) :
    (r.ID, pa) ∈ reusedPairs responses previousAnalyses := by
  rw [reusedPairs, List.mem_filterMap]
  exact ⟨r, hr, by rw [hprev]; simp [hhash]⟩

/-- Lookup of an unchanged response in the reused-pairs map. -/
theorem reused_lookup {responses : List Response}
    {previousAnalyses : List (String × ResponseAnalysis)} {r : Response}
    {pa : ResponseAnalysis}
    (hnd : (responses.map Response.ID).Nodup) (hr : r ∈ responses)
    (hprev : mlookup r.ID previousAnalyses = some pa)
    (hhash : pa.Response.Hash = r.Hash) :
    mlookup r.ID (mergePairs (reusedPairs responses previousAnalyses) [])
      = some pa := by
  have hkeys : ((reusedPairs responses previousAnalyses).map Prod.fst).Nodup :=
    hnd.sublist (reusedPairs_keys_sublist responses previousAnalyses)
  have hmem : (r.ID, pa) ∈ reusedPairs responses previousAnalyses :=
    mem_reusedPairs hr hprev hhash
  unfold mergePairs
  rw [mlookup_foldl_minsert]
  have hrev : mlookup r.ID (reusedPairs responses previousAnalyses).reverse
      = some pa := by
    rw [mlookup_perm (List.reverse_perm _)
      (((List.reverse_perm _).map Prod.fst).nodup_iff.2 hkeys) r.ID]
    exact mlookup_eq_some_of_mem hkeys hmem
  rw [hrev]

theorem chunks_join (l : List α) (k : Nat) : (chunks l k).join = l := by
  match l with
  | [] => simp [chunks_nil]
  | a :: as =>
    rw [chunks_cons]
    simp [chunks_join (as.drop (k - 1)) k]
termination_by l.length
decreasing_by
  simp only [List.length_cons]
  exact Nat.lt_succ_of_le (List.length_drop .. ▸ Nat.sub_le ..)

theorem chunks_map (f : α → β) (l : List α) (k : Nat) :
    chunks (l.map f) k = (chunks l k).map (List.map f) := by
  match l with
  | [] => simp [chunks_nil]
  | a :: as =>
    rw [List.map_cons, chunks_cons, chunks_cons]
    rw [← List.map_take, ← List.map_drop, chunks_map f (as.drop (k - 1)) k]
    simp
termination_by l.length
decreasing_by
  simp only [List.length_cons]
  exact Nat.lt_succ_of_le (List.length_drop .. ▸ Nat.sub_le ..)

theorem chunks_ne_nil (l : List α) (k : Nat) :
    ∀ c ∈ chunks l k, c ≠ [] := by
  match l with
  | [] => simp [chunks_nil]
  | a :: as =>
    rw [chunks_cons]
    intro c hc
    rcases List.mem_cons.1 hc with h | h
    · subst h; simp
    · exact chunks_ne_nil (as.drop (k - 1)) k c h
termination_by l.length
decreasing_by
  simp only [List.length_cons]
  exact Nat.lt_succ_of_le (List.length_drop .. ▸ Nat.sub_le ..)

theorem chunks_self (l : List α) (h : l ≠ []) : chunks l l.length = [l] := by
  match l with
  | [] => exact absurd rfl h
  | a :: as =>
    rw [show (a :: as).length = as.length + 1 from rfl, chunks_cons]
    simp [List.take_of_length_le, List.drop_of_length_le, chunks_nil]

theorem buildAnalysisPairs_keys (now : Nat) :
    ∀ (rs : List Response) (matched : List (List String)),
      (buildAnalysisPairs now rs matched).map Prod.fst = rs.map Response.ID := by
  intro rs
  induction rs with
  | nil => intro matched; simp [buildAnalysisPairs]
  | cons r rest ih => intro matched; simp [buildAnalysisPairs, ih]

theorem buildAnalysisPairs_append (now : Nat) :
    ∀ (rs1 : List Response) (matched1 : List (List String))
      (rs2 : List Response) (matched2 : List (List String)),
      matched1.length = rs1.length →
      buildAnalysisPairs now (rs1 ++ rs2) (matched1 ++ matched2)
        = buildAnalysisPairs now rs1 matched1 ++ buildAnalysisPairs now rs2 matched2 := by
  intro rs1
  induction rs1 with
  | nil =>
    intro matched1 rs2 matched2 hlen
    have h0 : matched1 = [] := List.length_eq_zero.1 (by simpa using hlen)
    subst h0
    simp [buildAnalysisPairs]
  | cons r rest ih =>
    intro matched1 rs2 matched2 hlen
    match matched1 with
    | [] => simp at hlen
    | m :: ms =>
      simp [buildAnalysisPairs, ih ms rs2 matched2 (by simpa using hlen)]

/-- `mergePairs` over a concatenation is sequential merging. -/
theorem mergePairs_append (pairs1 pairs2 acc : List (String × ResponseAnalysis)) :
    mergePairs (pairs1 ++ pairs2) acc = mergePairs pairs2 (mergePairs pairs1 acc) := by
  unfold mergePairs
  exact List.foldl_append ..

/-- Keys only in the pair list fall through to the accumulator. -/
theorem mergePairs_lookup_not_mem (pairs acc : List (String × ResponseAnalysis))
    (k : String) (h : k ∉ pairs.map Prod.fst) :
    mlookup k (mergePairs pairs acc) = mlookup k acc := by
  unfold mergePairs
  rw [mlookup_foldl_minsert]
  have : mlookup k pairs.reverse = none := by
    rw [mlookup_eq_none_iff]
    intro hm
    exact h (by
      have := (List.reverse_perm pairs).map Prod.fst
      exact this.mem_iff.1 hm)
  rw [this]

theorem processBatch_events (o : Oracle) (outputLanguage : String)
    (responses themes : List String) (contextPrompt : String) :
    (processBatch o outputLanguage responses themes contextPrompt).2
      = [CallEvent.matchBatchCall responses] := by
  unfold processBatch
  cases h : o.complete (batchPromptOf outputLanguage responses themes) contextPrompt <;>
    simp [h]

theorem runChunksAux_ok_char (o : Oracle) (outputLanguage : String)
    (themes : List String) (contextPrompt : String) :
    ∀ (bs : List (List String)) (i : Nat) (R : List (List String))
      (ev : List CallEvent),
      runChunksAux o outputLanguage themes contextPrompt bs i = (.ok R, ev) →
      ∃ rss : List (List (List String)),
        rss.length = bs.length
        ∧ R = rss.join
        ∧ (∀ j, j < bs.length →
            (processBatch o outputLanguage (bs.getD j []) themes contextPrompt).1
              = .ok (rss.getD j []))
        ∧ ev = bs.map CallEvent.matchBatchCall := by
  intro bs
  induction bs with
  | nil =>
    intro i R ev h
    simp only [runChunksAux, Prod.mk.injEq] at h
    refine ⟨[], by simp, ?_, by simp, by simp [← h.2]⟩
    have : R = [] := by injection h.1 with h1; exact h1.symm
    simp [this]
  | cons b rest ih =>
    intro i R ev h
    rw [runChunksAux] at h
    cases hpb : processBatch o outputLanguage b themes contextPrompt with
    | mk res1 ev1 =>
      rw [hpb] at h
      cases res1 with
      | error e => simp at h
      | ok rs =>
        simp only [] at h
        cases hrec : runChunksAux o outputLanguage themes contextPrompt rest
            (i + b.length) with
        | mk res2 ev2 =>
          rw [hrec] at h
          cases res2 with
          | error e => simp at h
          | ok R2 =>
            simp only [Prod.mk.injEq] at h
            have hR : R = rs ++ R2 := by injection h.1 with h1; exact h1.symm
            obtain ⟨rss, hlen, hjoin, hok, hev⟩ := ih (i + b.length) R2 ev2 hrec
            refine ⟨rs :: rss, by simp [hlen], by simp [hR, hjoin], ?_, ?_⟩
            · intro j hj
              cases j with
              | zero =>
                simp only [List.getD_cons_zero, hpb]
              | succ j' =>
                simp only [List.getD_cons_succ]
                exact hok j' (by simpa using hj)
            · rw [← h.2, hev]
              have : ev1 = [CallEvent.matchBatchCall b] := by
                have := processBatch_events o outputLanguage b themes contextPrompt
                rw [hpb] at this
                exact this
              simp [this]

/-- One worker's outcome in the parallel dispatcher. -/
def workerOutcome (o : Oracle) (outputLanguage : String) (themes : List String)
    (contextPrompt : String) (now : Nat) (batches : List (List Response))
    (j : Nat) : Except String (List (String × ResponseAnalysis)) × List CallEvent :=
  workerRun o outputLanguage themes contextPrompt now (batches.getD j []) j

/-- The analysis writes published by worker `j` (none on failure). -/
def workerPairsOf (o : Oracle) (outputLanguage : String) (themes : List String)
    (contextPrompt : String) (now : Nat) (batches : List (List Response))
    (j : Nat) : List (String × ResponseAnalysis) :=
  match (workerOutcome o outputLanguage themes contextPrompt now batches j).1 with
  | .ok pairs => pairs
  | .error _ => []

/-- The error published by worker `j`, if any. -/
def workerErrOf (o : Oracle) (outputLanguage : String) (themes : List String)
    (contextPrompt : String) (now : Nat) (batches : List (List Response))
    (j : Nat) : Option String :=
  match (workerOutcome o outputLanguage themes contextPrompt now batches j).1 with
  | .ok _ => none
  | .error e => some e

/-- The request events issued by worker `j`. -/
def workerEventsOf (o : Oracle) (outputLanguage : String) (themes : List String)
    (contextPrompt : String) (now : Nat) (batches : List (List Response))
    (j : Nat) : List CallEvent :=
  (workerOutcome o outputLanguage themes contextPrompt now batches j).2

theorem parallelLoop_spec (o : Oracle) (outputLanguage : String)
    (themes : List String) (contextPrompt : String) (now : Nat)
    (batches : List (List Response)) :
    ∀ (sched : List Nat) (acc : List (String × ResponseAnalysis))
      (errs : List String) (evs : List CallEvent),
      parallelLoop o outputLanguage themes contextPrompt now batches sched acc errs evs
        = (mergePairs ((sched.map
              (workerPairsOf o outputLanguage themes contextPrompt now batches)).join)
            acc,
           errs ++ sched.filterMap
            (workerErrOf o outputLanguage themes contextPrompt now batches),
           evs ++ (sched.map
            (workerEventsOf o outputLanguage themes contextPrompt now batches)).join) := by
  intro sched
  induction sched with
  | nil =>
    intro acc errs evs
    simp [parallelLoop, mergePairs]
  | cons j rest ih =>
    intro acc errs evs
    rw [parallelLoop]
    cases hw : workerRun o outputLanguage themes contextPrompt now
        (batches.getD j []) j with
    | mk res ev =>
      have hout : workerOutcome o outputLanguage themes contextPrompt now batches j
          = (res, ev) := hw
      cases res with
      | error e =>
        simp only []
        rw [ih]
        have h1 : workerPairsOf o outputLanguage themes contextPrompt now batches j
            = [] := by unfold workerPairsOf; rw [hout]
        have h2 : workerErrOf o outputLanguage themes contextPrompt now batches j
            = some e := by unfold workerErrOf; rw [hout]
        have h3 : workerEventsOf o outputLanguage themes contextPrompt now batches j
            = ev := by unfold workerEventsOf; rw [hout]
        simp [h1, h2, h3, mergePairs]
      | ok pairs =>
        simp only []
        rw [ih]
        have h1 : workerPairsOf o outputLanguage themes contextPrompt now batches j
            = pairs := by unfold workerPairsOf; rw [hout]
        have h2 : workerErrOf o outputLanguage themes contextPrompt now batches j
            = none := by unfold workerErrOf; rw [hout]
        have h3 : workerEventsOf o outputLanguage themes contextPrompt now batches j
            = ev := by unfold workerEventsOf; rw [hout]
        simp [h1, h2, h3, mergePairs_append]

/-- The batches both dispatch modes cut the dirty responses into. -/
def matchBatches (responses : List Response)
    (previousAnalyses : List (String × ResponseAnalysis)) (batchSize : Int) :
    List (List Response) :=
  chunks (dirtyResponses responses previousAnalyses)
    (defaultBatchSize batchSize (dirtyResponses responses previousAnalyses).length).toNat

theorem defaultBatchSize_pos (batchSize : Int) (n : Nat) (hn : 0 < n) :
    0 < defaultBatchSize batchSize n := by
  unfold defaultBatchSize
  by_cases h : batchSize ≤ 0
  · simp only [h, if_pos]
    by_cases h1 : n > 100
    · simp [h1]
    · by_cases h2 : n < 10
      · simp [h1, h2]
        exact_mod_cast hn
      · simp [h1, h2]
  · simp only [h, if_false]
    omega

/-- The serial matcher, rewritten through its partition and batching. -/
theorem matchSerial_eq (o : Oracle) (outputLanguage : String)
    (responses : List Response) (themes : List String) (contextPrompt : String)
    (previousAnalyses : List (String × ResponseAnalysis)) (batchSize : Int)
    (now : Nat) :
    MatchResponsesToThemes o outputLanguage responses themes contextPrompt
        previousAnalyses batchSize now
      = if (dirtyResponses responses previousAnalyses).isEmpty then
          (.ok (mergePairs (reusedPairs responses previousAnalyses) []), [])
        else
          match clientMatchBatch o outputLanguage
              ((dirtyResponses responses previousAnalyses).map Response.Text)
              themes contextPrompt
              (defaultBatchSize batchSize
                (dirtyResponses responses previousAnalyses).length) with
          | (.error e, ev) =>
            (.error s!"failed to match responses to themes in batch: {e}", ev)
          | (.ok matched, ev) =>
            (.ok (mergePairs
              (buildAnalysisPairs now (dirtyResponses responses previousAnalyses)
                matched)
              (mergePairs (reusedPairs responses previousAnalyses) [])), ev) := by
  unfold MatchResponsesToThemes
  rw [partitionResponses_eq]

/-- The parallel matcher, rewritten through its partition, batching and the
worker schedule. -/
theorem matchParallel_eq (o : Oracle) (outputLanguage : String)
    (responses : List Response) (themes : List String) (contextPrompt : String)
    (previousAnalyses : List (String × ResponseAnalysis))
    (batchSize numWorkers : Int) (now : Nat) (sched : List Nat) :
    MatchResponsesToThemesParallel o outputLanguage responses themes contextPrompt
        previousAnalyses batchSize numWorkers now sched
      = if (dirtyResponses responses previousAnalyses).isEmpty then
          (.ok (mergePairs (reusedPairs responses previousAnalyses) []), [])
        else
          let batches := matchBatches responses previousAnalyses batchSize
          let errs := sched.filterMap
            (workerErrOf o outputLanguage themes contextPrompt now batches)
          let evs := (sched.map
            (workerEventsOf o outputLanguage themes contextPrompt now batches)).join
          if errs.isEmpty then
            (.ok (mergePairs ((sched.map
                (workerPairsOf o outputLanguage themes contextPrompt now batches)).join)
              (mergePairs (reusedPairs responses previousAnalyses) [])), evs)
          else
            (.error ("errors occurred during parallel processing: "
              ++ String.intercalate "; " errs), evs) := by
  unfold MatchResponsesToThemesParallel
  rw [partitionResponses_eq]
  by_cases h : (dirtyResponses responses previousAnalyses).isEmpty
  · simp only [h, if_pos]
  · simp only [h, if_neg, if_false]
    rw [parallelLoop_spec]
    simp only [List.nil_append]
    rfl

theorem getD_mem {l : List α} {j : Nat} (d : α) (h : j < l.length) :
    l.getD j d ∈ l := by
  induction l generalizing j with
  | nil => simp at h
  | cons a as ih =>
    cases j with
    | zero => simp
    | succ j' =>
      simp only [List.getD_cons_succ]
      exact List.mem_cons_of_mem _ (ih (by simpa using h))

/-- One parallel worker, success case: the worker publishes exactly the
analysis writes built from its single batch-matching API call. -/
theorem workerRun_ok_char (o : Oracle) (outputLanguage : String)
    (themes : List String) (contextPrompt : String) (now : Nat)
    (batch : List Response) (j : Nat) (hb : batch ≠ [])
    (rs : List (List String)) (ev : List CallEvent)
    (hpb : processBatch o outputLanguage (batch.map Response.Text) themes
      contextPrompt = (.ok rs, ev)) :
    workerRun o outputLanguage themes contextPrompt now batch j
      = (.ok (buildAnalysisPairs now batch rs), ev) := by
  unfold workerRun clientMatchBatch
  have hpos : 0 < batch.length := List.length_pos.2 hb
  have hlen0 : ¬ ((batch.length : Int) ≤ 0) := by
    simp only [not_le]
    exact_mod_cast hpos
  rw [if_neg hlen0]
  have hmap : chunks (batch.map Response.Text) batch.length
      = [batch.map Response.Text] := by
    rw [show batch.length = (batch.map Response.Text).length by simp]
    exact chunks_self _ (by simpa using hb)
  simp only [Int.toNat_natCast, hmap]
  rw [runChunksAux, hpb]
  rw [runChunksAux]
  simp

/-- One parallel worker, failure case: the worker publishes an error (the
wrapped batch error) and the events of its single API call. -/
theorem workerRun_error_char (o : Oracle) (outputLanguage : String)
    (themes : List String) (contextPrompt : String) (now : Nat)
    (batch : List Response) (j : Nat) (hb : batch ≠ [])
    (e : String) (ev : List CallEvent)
    (hpb : processBatch o outputLanguage (batch.map Response.Text) themes
      contextPrompt = (.error e, ev)) :
    ∃ e₂, workerRun o outputLanguage themes contextPrompt now batch j
      = (.error e₂, ev) := by
  unfold workerRun clientMatchBatch
  have hpos : 0 < batch.length := List.length_pos.2 hb
  have hlen0 : ¬ ((batch.length : Int) ≤ 0) := by
    simp only [not_le]
    exact_mod_cast hpos
  rw [if_neg hlen0]
  have hmap : chunks (batch.map Response.Text) batch.length
      = [batch.map Response.Text] := by
    rw [show batch.length = (batch.map Response.Text).length by simp]
    exact chunks_self _ (by simpa using hb)
  simp only [Int.toNat_natCast, hmap]
  rw [runChunksAux, hpb]
  simp

/-- Every worker issues exactly one batch-matching request, whether it
succeeds or fails. -/
theorem workerRun_events (o : Oracle) (outputLanguage : String)
    (themes : List String) (contextPrompt : String) (now : Nat)
    (batch : List Response) (j : Nat) (hb : batch ≠ []) :
    (workerRun o outputLanguage themes contextPrompt now batch j).2
      = [CallEvent.matchBatchCall (batch.map Response.Text)] := by
  have hev := processBatch_events o outputLanguage (batch.map Response.Text)
    themes contextPrompt
  cases hpb : processBatch o outputLanguage (batch.map Response.Text) themes
      contextPrompt with
  | mk res ev =>
    rw [hpb] at hev
    cases res with
    | error e =>
      obtain ⟨e₂, he₂⟩ := workerRun_error_char o outputLanguage themes
        contextPrompt now batch j hb e ev hpb
      rw [he₂]
      exact hev
    | ok rs =>
      rw [workerRun_ok_char o outputLanguage themes contextPrompt now batch j hb
        rs ev hpb]
      exact hev

theorem clientMatchBatch_eq (o : Oracle) (outputLanguage : String)
    (responses themes : List String) (contextPrompt : String) (batchSize : Int) :
    clientMatchBatch o outputLanguage responses themes contextPrompt batchSize
      = runChunksAux o outputLanguage themes contextPrompt
          (chunks responses (if batchSize ≤ 0 then (10 : Int) else batchSize).toNat)
          0 := rfl

theorem runChunksAux_events_sub (o : Oracle) (outputLanguage : String)
    (themes : List String) (contextPrompt : String) :
    ∀ (bs : List (List String)) (i : Nat)
      (res : Except String (List (List String))) (ev : List CallEvent),
      runChunksAux o outputLanguage themes contextPrompt bs i = (res, ev) →
      ∀ e ∈ ev, ∃ b ∈ bs, e = CallEvent.matchBatchCall b := by
  intro bs
  induction bs with
  | nil =>
    intro i res ev h
    simp only [runChunksAux, Prod.mk.injEq] at h
    intro e he
    rw [← h.2] at he
    simp at he
  | cons b rest ih =>
    intro i res ev h
    rw [runChunksAux] at h
    have hev1 := processBatch_events o outputLanguage b themes contextPrompt
    cases hpb : processBatch o outputLanguage b themes contextPrompt with
    | mk res1 ev1 =>
      rw [hpb] at h hev1
      have hev1e : ev1 = [CallEvent.matchBatchCall b] := hev1
      cases res1 with
      | error e1 =>
        simp only [Prod.mk.injEq] at h
        intro e he
        rw [← h.2] at he
        rw [hev1e, List.mem_singleton] at he
        exact ⟨b, List.mem_cons_self .., he⟩
      | ok rs =>
        simp only [] at h
        cases hrec : runChunksAux o outputLanguage themes contextPrompt rest
            (i + b.length) with
        | mk res2 ev2 =>
          rw [hrec] at h
          have hstep : ∀ e ∈ ev1 ++ ev2, ∃ b2 ∈ b :: rest,
              e = CallEvent.matchBatchCall b2 := by
            intro e he
            rcases List.mem_append.1 he with he | he
            · rw [hev1e, List.mem_singleton] at he
              exact ⟨b, List.mem_cons_self .., he⟩
            · obtain ⟨b2, hb2, he2⟩ := ih _ _ _ hrec e he
              exact ⟨b2, List.mem_cons_of_mem _ hb2, he2⟩
          cases res2 with
          | error e2 =>
            simp only [Prod.mk.injEq] at h
            intro e he
            rw [← h.2] at he
            exact hstep e he
          | ok R2 =>
            simp only [Prod.mk.injEq] at h
            intro e he
            rw [← h.2] at he
            exact hstep e he

theorem chunk_mem_subset {l : List α} {k : Nat} {c : List α}
    (hc : c ∈ chunks l k) : ∀ x ∈ c, x ∈ l := by
  intro x hx
  have : x ∈ (chunks l k).join := List.mem_join.2 ⟨c, hc, hx⟩
  rw [chunks_join] at this
  exact this

theorem workerRun_nil (o : Oracle) (outputLanguage : String) (themes : List String)
    (contextPrompt : String) (now : Nat) (j : Nat) :
    workerRun o outputLanguage themes contextPrompt now [] j = (.ok [], []) := by
  unfold workerRun clientMatchBatch
  simp [chunks_nil, runChunksAux, buildAnalysisPairs]

/-- An unchanged response's id never appears among the dirty responses. -/
theorem unchanged_not_in_dirty {responses : List Response}
    {previousAnalyses : List (String × ResponseAnalysis)} {r : Response}
    {pa : ResponseAnalysis}
    (hnd : (responses.map Response.ID).Nodup) (hr : r ∈ responses)
    (hprev : mlookup r.ID previousAnalyses = some pa)
    (hhash : pa.Response.Hash = r.Hash) :
    r.ID ∉ (dirtyResponses responses previousAnalyses).map Response.ID := by
  intro hmem
  rw [List.mem_map] at hmem
  obtain ⟨r2, hr2, hid⟩ := hmem
  rw [dirtyResponses, List.mem_filter] at hr2
  obtain ⟨hr2resp, hdirty⟩ := hr2
  have heq : r2 = r := List.inj_on_of_nodup_map hnd hr2resp hr hid
  subst heq
  rw [isUnchanged, hprev] at hdirty
  simp [hhash] at hdirty

/-- The ids a worker can publish are ids of its batch. -/
theorem workerPairsOf_keys_sub (o : Oracle) (outputLanguage : String)
    (themes : List String) (contextPrompt : String) (now : Nat)
    (batches : List (List Response)) (j : Nat) :
    ∀ k ∈ (workerPairsOf o outputLanguage themes contextPrompt now batches j).map
        Prod.fst,
      k ∈ (batches.getD j []).map Response.ID := by
  intro k hk
  by_cases hb : batches.getD j [] = []
  · unfold workerPairsOf workerOutcome at hk
    rw [hb, workerRun_nil] at hk
    simp at hk
  · cases hpb : processBatch o outputLanguage ((batches.getD j []).map Response.Text)
        themes contextPrompt with
    | mk res1 ev1 =>
      cases res1 with
      | error e =>
        obtain ⟨e₂, he₂⟩ := workerRun_error_char o outputLanguage themes
          contextPrompt now (batches.getD j []) j hb e ev1 hpb
        unfold workerPairsOf workerOutcome at hk
        rw [he₂] at hk
        simp at hk
      | ok rs =>
        have hok := workerRun_ok_char o outputLanguage themes contextPrompt now
          (batches.getD j []) j hb rs ev1 hpb
        unfold workerPairsOf workerOutcome at hk
        rw [hok] at hk
        simp only [] at hk
        rw [buildAnalysisPairs_keys] at hk
        exact hk

/-! ### C2: unchanged responses are copied verbatim; only dirty responses
are dispatched -/

/-- C2: for every response whose id has a prior analysis with an equal
content hash, both the serial and the parallel matcher place that prior
`ResponseAnalysis` — the whole record, hence also its original `Analyzed`
timestamp — into the new result unmodified, and every text dispatched to
the batch-matching API (in any `matchBatchCall`) is the text of a response
with a new id or a changed hash. -/
theorem c2_unchanged_copied_verbatim (o : Oracle) (outputLanguage : String)
    (responses : List Response) (themes : List String) (contextPrompt : String)
    (previousAnalyses : List (String × ResponseAnalysis))
    (batchSize numWorkers : Int) (now : Nat) (sched : List Nat)
    (r : Response) (pa : ResponseAnalysis)
    (hnd : (responses.map Response.ID).Nodup)
    (hr : r ∈ responses)
    (hprev : mlookup r.ID previousAnalyses = some pa)
    (hhash : pa.Response.Hash = r.Hash) :
    (∀ m ev, MatchResponsesToThemes o outputLanguage responses themes
        contextPrompt previousAnalyses batchSize now = (.ok m, ev) →
        mlookup r.ID m = some pa)
    ∧ (∀ m ev, MatchResponsesToThemesParallel o outputLanguage responses themes
        contextPrompt previousAnalyses batchSize numWorkers now sched
        = (.ok m, ev) → mlookup r.ID m = some pa)
    ∧ (∀ res ev, MatchResponsesToThemes o outputLanguage responses themes
        contextPrompt previousAnalyses batchSize now = (res, ev) →
        ∀ ts, CallEvent.matchBatchCall ts ∈ ev →
          ∀ t ∈ ts, t ∈ (dirtyResponses responses previousAnalyses).map Response.Text)
    ∧ (∀ res ev, MatchResponsesToThemesParallel o outputLanguage responses themes
        contextPrompt previousAnalyses batchSize numWorkers now sched = (res, ev) →
        ∀ ts, CallEvent.matchBatchCall ts ∈ ev →
          ∀ t ∈ ts, t ∈ (dirtyResponses responses previousAnalyses).map
            Response.Text) := by
  have hreused : mlookup r.ID (mergePairs (reusedPairs responses previousAnalyses) [])
      = some pa := reused_lookup hnd hr hprev hhash
  have hnotdirty := unchanged_not_in_dirty hnd hr hprev hhash
  refine ⟨?serialReuse, ?parallelReuse, ?serialDispatch, ?parallelDispatch⟩
  case serialReuse =>
    intro m ev hrun
    rw [matchSerial_eq] at hrun
    by_cases hde : (dirtyResponses responses previousAnalyses).isEmpty
    · rw [if_pos hde] at hrun
      simp only [Prod.mk.injEq] at hrun
      have : mergePairs (reusedPairs responses previousAnalyses) [] = m := by
        injection hrun.1
      rw [← this]
      exact hreused
    · rw [if_neg hde] at hrun
      cases hcb : clientMatchBatch o outputLanguage
          ((dirtyResponses responses previousAnalyses).map Response.Text)
          themes contextPrompt
          (defaultBatchSize batchSize
            (dirtyResponses responses previousAnalyses).length) with
      | mk res1 ev1 =>
        rw [hcb] at hrun
        cases res1 with
        | error e => simp at hrun
        | ok matched =>
          simp only [Prod.mk.injEq] at hrun
          have hm : mergePairs
              (buildAnalysisPairs now (dirtyResponses responses previousAnalyses)
                matched)
              (mergePairs (reusedPairs responses previousAnalyses) []) = m := by
            injection hrun.1
          rw [← hm]
          rw [mergePairs_lookup_not_mem]
          · exact hreused
          · rw [buildAnalysisPairs_keys]
            exact hnotdirty
  case parallelReuse =>
    intro m ev hrun
    rw [matchParallel_eq] at hrun
    by_cases hde : (dirtyResponses responses previousAnalyses).isEmpty
    · rw [if_pos hde] at hrun
      simp only [Prod.mk.injEq] at hrun
      have : mergePairs (reusedPairs responses previousAnalyses) [] = m := by
        injection hrun.1
      rw [← this]
      exact hreused
    · rw [if_neg hde] at hrun
      simp only [] at hrun
      by_cases herr : (sched.filterMap (workerErrOf o outputLanguage themes
          contextPrompt now (matchBatches responses previousAnalyses batchSize))).isEmpty
      · rw [if_pos herr] at hrun
        simp only [Prod.mk.injEq] at hrun
        have hm : mergePairs ((sched.map (workerPairsOf o outputLanguage themes
            contextPrompt now (matchBatches responses previousAnalyses batchSize))).join)
            (mergePairs (reusedPairs responses previousAnalyses) []) = m := by
          injection hrun.1
        rw [← hm]
        rw [mergePairs_lookup_not_mem]
        · exact hreused
        · intro hmem
          rw [List.map_join, List.mem_join] at hmem
          obtain ⟨kl, hkl, hk⟩ := hmem
          rw [List.mem_map] at hkl
          obtain ⟨pl, hpl, hple⟩ := hkl
          rw [List.mem_map] at hpl
          obtain ⟨j, hj, hje⟩ := hpl
          rw [← hje] at hple
          rw [← hple] at hk
          have := workerPairsOf_keys_sub o outputLanguage themes contextPrompt now
            (matchBatches responses previousAnalyses batchSize) j r.ID hk
          rw [List.mem_map] at this
          obtain ⟨r2, hr2, hr2id⟩ := this
          by_cases hb : ((matchBatches responses previousAnalyses batchSize).getD j [])
              = []
          · rw [hb] at hr2; simp at hr2
          · have hr2dirty : r2 ∈ dirtyResponses responses previousAnalyses := by
              by_cases hjlen : j < (matchBatches responses previousAnalyses batchSize).length
              · exact chunk_mem_subset (getD_mem _ hjlen) r2 hr2
              · rw [List.getD_eq_default _ _ (by omega)] at hr2
                simp at hr2
            exact hnotdirty (List.mem_map.2 ⟨r2, hr2dirty, hr2id⟩)
      · rw [if_neg herr] at hrun
        simp at hrun
  case serialDispatch =>
    intro res ev hrun
    rw [matchSerial_eq] at hrun
    by_cases hde : (dirtyResponses responses previousAnalyses).isEmpty
    · rw [if_pos hde] at hrun
      simp only [Prod.mk.injEq] at hrun
      intro ts hts
      rw [← hrun.2] at hts
      simp at hts
    · rw [if_neg hde] at hrun
      cases hcb : clientMatchBatch o outputLanguage
          ((dirtyResponses responses previousAnalyses).map Response.Text)
          themes contextPrompt
          (defaultBatchSize batchSize
            (dirtyResponses responses previousAnalyses).length) with
      | mk res1 ev1 =>
        rw [hcb] at hrun
        have hevsub : ∀ e ∈ ev1, ∃ b ∈ chunks
            ((dirtyResponses responses previousAnalyses).map Response.Text)
            (if (defaultBatchSize batchSize
                (dirtyResponses responses previousAnalyses).length) ≤ 0 then (10 : Int)
              else (defaultBatchSize batchSize
                (dirtyResponses responses previousAnalyses).length)).toNat,
            e = CallEvent.matchBatchCall b := by
          rw [clientMatchBatch_eq] at hcb
          exact runChunksAux_events_sub o outputLanguage themes contextPrompt _ _ _ _ hcb
        have hev : ev = ev1 := by
          cases res1 with
          | error e => simp only [Prod.mk.injEq] at hrun; exact hrun.2.symm
          | ok matched => simp only [Prod.mk.injEq] at hrun; exact hrun.2.symm
        intro ts hts t ht
        rw [hev] at hts
        obtain ⟨b, hb, hbe⟩ := hevsub _ hts
        have hts2 : ts = b := by injection hbe
        rw [hts2] at ht
        exact chunk_mem_subset hb t ht
  case parallelDispatch =>
    intro res ev hrun
    rw [matchParallel_eq] at hrun
    by_cases hde : (dirtyResponses responses previousAnalyses).isEmpty
    · rw [if_pos hde] at hrun
      simp only [Prod.mk.injEq] at hrun
      intro ts hts
      rw [← hrun.2] at hts
      simp at hts
    · rw [if_neg hde] at hrun
      simp only [] at hrun
      have hev : ev = (sched.map (workerEventsOf o outputLanguage themes
          contextPrompt now (matchBatches responses previousAnalyses batchSize))).join := by
        by_cases herr : (sched.filterMap (workerErrOf o outputLanguage themes
            contextPrompt now (matchBatches responses previousAnalyses batchSize))).isEmpty
        · rw [if_pos herr] at hrun
          simp only [Prod.mk.injEq] at hrun
          exact hrun.2.symm
        · rw [if_neg herr] at hrun
          simp only [Prod.mk.injEq] at hrun
          exact hrun.2.symm
      intro ts hts t ht
      rw [hev, List.mem_join] at hts
      obtain ⟨evl, hevl, hemem⟩ := hts
      rw [List.mem_map] at hevl
      obtain ⟨j, hj, hjev⟩ := hevl
      by_cases hb : ((matchBatches responses previousAnalyses batchSize).getD j []) = []
      · unfold workerEventsOf workerOutcome at hjev
        rw [hb, workerRun_nil] at hjev
        rw [← hjev] at hemem
        simp at hemem
      · unfold workerEventsOf workerOutcome at hjev
        rw [workerRun_events o outputLanguage themes contextPrompt now _ j hb] at hjev
        rw [← hjev, List.mem_singleton] at hemem
        have hts2 : ts = ((matchBatches responses previousAnalyses batchSize).getD j []).map
            Response.Text := by injection hemem
        rw [hts2, List.mem_map] at ht
        obtain ⟨r2, hr2, hr2t⟩ := ht
        have hr2dirty : r2 ∈ dirtyResponses responses previousAnalyses := by
          by_cases hjlen : j < (matchBatches responses previousAnalyses batchSize).length
          · exact chunk_mem_subset (getD_mem _ hjlen) r2 hr2
          · rw [List.getD_eq_default _ _ (by omega)] at hr2
            simp at hr2
        exact List.mem_map.2 ⟨r2, hr2dirty, hr2t⟩

/-- C2 witness: with `r1` unchanged and `r2` new, both matchers keep `r1`'s
prior analysis (timestamp 5 included) and dispatch only `r2`'s text. -/
theorem c2_unchanged_copied_verbatim_witness :
    (∀ m ev, MatchResponsesToThemes ⟨fun _ _ => .ok "RESPONSE 1: 1"⟩ ""
        [⟨"r1", "hello", 0, "h1"⟩, ⟨"r2", "world", 1, "h2"⟩] ["t"] "ctx"
        [("r1", ⟨⟨"r1", "hello", 0, "h1"⟩, ["t"], 5⟩)] 1 9 = (.ok m, ev) →
        mlookup "r1" m = some ⟨⟨"r1", "hello", 0, "h1"⟩, ["t"], 5⟩)
    ∧ (∀ m ev, MatchResponsesToThemesParallel ⟨fun _ _ => .ok "RESPONSE 1: 1"⟩ ""
        [⟨"r1", "hello", 0, "h1"⟩, ⟨"r2", "world", 1, "h2"⟩] ["t"] "ctx"
        [("r1", ⟨⟨"r1", "hello", 0, "h1"⟩, ["t"], 5⟩)] 1 4 9 [0]
        = (.ok m, ev) → mlookup "r1" m = some ⟨⟨"r1", "hello", 0, "h1"⟩, ["t"], 5⟩)
    ∧ (∀ res ev, MatchResponsesToThemes ⟨fun _ _ => .ok "RESPONSE 1: 1"⟩ ""
        [⟨"r1", "hello", 0, "h1"⟩, ⟨"r2", "world", 1, "h2"⟩] ["t"] "ctx"
        [("r1", ⟨⟨"r1", "hello", 0, "h1"⟩, ["t"], 5⟩)] 1 9 = (res, ev) →
        ∀ ts, CallEvent.matchBatchCall ts ∈ ev →
          ∀ t ∈ ts, t ∈ (dirtyResponses
            [⟨"r1", "hello", 0, "h1"⟩, ⟨"r2", "world", 1, "h2"⟩]
            [("r1", ⟨⟨"r1", "hello", 0, "h1"⟩, ["t"], 5⟩)]).map Response.Text)
    ∧ (∀ res ev, MatchResponsesToThemesParallel ⟨fun _ _ => .ok "RESPONSE 1: 1"⟩ ""
        [⟨"r1", "hello", 0, "h1"⟩, ⟨"r2", "world", 1, "h2"⟩] ["t"] "ctx"
        [("r1", ⟨⟨"r1", "hello", 0, "h1"⟩, ["t"], 5⟩)] 1 4 9 [0] = (res, ev) →
        ∀ ts, CallEvent.matchBatchCall ts ∈ ev →
          ∀ t ∈ ts, t ∈ (dirtyResponses
            [⟨"r1", "hello", 0, "h1"⟩, ⟨"r2", "world", 1, "h2"⟩]
            [("r1", ⟨⟨"r1", "hello", 0, "h1"⟩, ["t"], 5⟩)]).map Response.Text) :=
  c2_unchanged_copied_verbatim ⟨fun _ _ => .ok "RESPONSE 1: 1"⟩ ""
    [⟨"r1", "hello", 0, "h1"⟩, ⟨"r2", "world", 1, "h2"⟩] ["t"] "ctx"
    [("r1", ⟨⟨"r1", "hello", 0, "h1"⟩, ["t"], 5⟩)] 1 4 9 [0]
    ⟨"r1", "hello", 0, "h1"⟩ ⟨⟨"r1", "hello", 0, "h1"⟩, ["t"], 5⟩
    (by decide) (by decide) (by decide) (by decide)

/-! ### C4: fail-closed parallel matching -/

/-- C4: when at least one batch fails during parallel matching, the call
returns an error whose message aggregates every failed batch's error
message (joined with `"; "`), exposes no result map, and still dispatches
every batch — a batch-matching request is issued for every batch, with no
early cancellation. -/
theorem c4_parallel_fail_closed (o : Oracle) (outputLanguage : String)
    (responses : List Response) (themes : List String) (contextPrompt : String)
    (previousAnalyses : List (String × ResponseAnalysis))
    (batchSize numWorkers : Int) (now : Nat) (sched : List Nat)
    (hsched : sched.Perm (List.range
      (matchBatches responses previousAnalyses batchSize).length))
    (hfail : ∃ j ∈ sched, workerErrOf o outputLanguage themes contextPrompt now
        (matchBatches responses previousAnalyses batchSize) j ≠ none) :
    (MatchResponsesToThemesParallel o outputLanguage responses themes contextPrompt
        previousAnalyses batchSize numWorkers now sched).1
      = .error ("errors occurred during parallel processing: "
          ++ String.intercalate "; " (sched.filterMap (workerErrOf o outputLanguage
              themes contextPrompt now
              (matchBatches responses previousAnalyses batchSize))))
    ∧ sched.filterMap (workerErrOf o outputLanguage themes contextPrompt now
        (matchBatches responses previousAnalyses batchSize)) ≠ []
    ∧ (∀ j ∈ sched, ∀ e, workerErrOf o outputLanguage themes contextPrompt now
        (matchBatches responses previousAnalyses batchSize) j = some e →
        e ∈ sched.filterMap (workerErrOf o outputLanguage themes contextPrompt now
          (matchBatches responses previousAnalyses batchSize)))
    ∧ (∀ j, j < (matchBatches responses previousAnalyses batchSize).length →
        CallEvent.matchBatchCall
            (((matchBatches responses previousAnalyses batchSize).getD j []).map
              Response.Text)
          ∈ (MatchResponsesToThemesParallel o outputLanguage responses themes
              contextPrompt previousAnalyses batchSize numWorkers now sched).2) := by
  obtain ⟨j0, hj0, hj0e⟩ := hfail
  have hde : ¬ (dirtyResponses responses previousAnalyses).isEmpty = true := by
    intro habs
    have hnil : dirtyResponses responses previousAnalyses = [] :=
      List.isEmpty_iff.1 habs
    have hmb : matchBatches responses previousAnalyses batchSize = [] := by
      unfold matchBatches
      rw [hnil, chunks_nil]
    rw [hmb] at hsched
    simp only [List.length_nil, List.range_zero] at hsched
    rw [hsched.eq_nil] at hj0
    simp at hj0
  have herrne : sched.filterMap (workerErrOf o outputLanguage themes contextPrompt
      now (matchBatches responses previousAnalyses batchSize)) ≠ [] := by
    intro habs
    cases he0 : workerErrOf o outputLanguage themes contextPrompt now
        (matchBatches responses previousAnalyses batchSize) j0 with
    | none => exact hj0e he0
    | some e0 =>
      have : e0 ∈ sched.filterMap (workerErrOf o outputLanguage themes contextPrompt
          now (matchBatches responses previousAnalyses batchSize)) :=
        List.mem_filterMap.2 ⟨j0, hj0, he0⟩
      rw [habs] at this
      simp at this
  have herrb : ¬ (sched.filterMap (workerErrOf o outputLanguage themes contextPrompt
      now (matchBatches responses previousAnalyses batchSize))).isEmpty = true := by
    intro habs
    exact herrne (List.isEmpty_iff.1 habs)
  have hrun := matchParallel_eq o outputLanguage responses themes contextPrompt
    previousAnalyses batchSize numWorkers now sched
  rw [if_neg hde] at hrun
  simp only [] at hrun
  rw [if_neg herrb] at hrun
  refine ⟨by rw [hrun], herrne, ?_, ?_⟩
  · intro j hj e hje
    exact List.mem_filterMap.2 ⟨j, hj, hje⟩
  · intro j hjlen
    rw [hrun]
    simp only []
    have hjsched : j ∈ sched := hsched.mem_iff.2 (List.mem_range.2 hjlen)
    have hbne : (matchBatches responses previousAnalyses batchSize).getD j [] ≠ [] :=
      chunks_ne_nil _ _ _ (getD_mem _ hjlen)
    have hwev : workerEventsOf o outputLanguage themes contextPrompt now
        (matchBatches responses previousAnalyses batchSize) j
        = [CallEvent.matchBatchCall
            (((matchBatches responses previousAnalyses batchSize).getD j []).map
              Response.Text)] := by
      unfold workerEventsOf workerOutcome
      exact workerRun_events o outputLanguage themes contextPrompt now _ j hbne
    rw [List.mem_join]
    refine ⟨workerEventsOf o outputLanguage themes contextPrompt now
      (matchBatches responses previousAnalyses batchSize) j,
      List.mem_map.2 ⟨j, hjsched, rfl⟩, ?_⟩
    rw [hwev]
    simp

/-- C4 witness: two single-response batches, a transport that always fails,
completion order `[1, 0]`: the call fails with the aggregated message, both
workers dispatched their batch. -/
theorem c4_parallel_fail_closed_witness :
    (MatchResponsesToThemesParallel ⟨fun _ _ => .error "boom"⟩ ""
        [⟨"r1", "hello", 0, "h1"⟩, ⟨"r2", "world", 1, "h2"⟩] ["t"] "ctx"
        [] 1 4 9 [1, 0]).1
      = .error ("errors occurred during parallel processing: "
          ++ String.intercalate "; " ([1, 0].filterMap (workerErrOf
              ⟨fun _ _ => .error "boom"⟩ "" ["t"] "ctx" 9
              (matchBatches [⟨"r1", "hello", 0, "h1"⟩, ⟨"r2", "world", 1, "h2"⟩]
                [] 1))))
    ∧ [1, 0].filterMap (workerErrOf ⟨fun _ _ => .error "boom"⟩ "" ["t"] "ctx" 9
        (matchBatches [⟨"r1", "hello", 0, "h1"⟩, ⟨"r2", "world", 1, "h2"⟩] [] 1))
      ≠ []
    ∧ (∀ j ∈ [1, 0], ∀ e, workerErrOf ⟨fun _ _ => .error "boom"⟩ "" ["t"] "ctx" 9
        (matchBatches [⟨"r1", "hello", 0, "h1"⟩, ⟨"r2", "world", 1, "h2"⟩] [] 1) j
          = some e →
        e ∈ [1, 0].filterMap (workerErrOf ⟨fun _ _ => .error "boom"⟩ "" ["t"] "ctx" 9
          (matchBatches [⟨"r1", "hello", 0, "h1"⟩, ⟨"r2", "world", 1, "h2"⟩] [] 1)))
    ∧ (∀ j, j < (matchBatches [⟨"r1", "hello", 0, "h1"⟩, ⟨"r2", "world", 1, "h2"⟩]
          [] 1).length →
        CallEvent.matchBatchCall
            (((matchBatches [⟨"r1", "hello", 0, "h1"⟩, ⟨"r2", "world", 1, "h2"⟩]
              [] 1).getD j []).map Response.Text)
          ∈ (MatchResponsesToThemesParallel ⟨fun _ _ => .error "boom"⟩ ""
              [⟨"r1", "hello", 0, "h1"⟩, ⟨"r2", "world", 1, "h2"⟩] ["t"] "ctx"
              [] 1 4 9 [1, 0]).2) :=
  c4_parallel_fail_closed ⟨fun _ _ => .error "boom"⟩ ""
    [⟨"r1", "hello", 0, "h1"⟩, ⟨"r2", "world", 1, "h2"⟩] ["t"] "ctx" [] 1 4 9 [1, 0]
    (by decide) (by decide)

/-! ### C3: serial and parallel dispatch assign identical themes -/

theorem processBatch_ok_length (o : Oracle) (outputLanguage : String)
    (texts themes : List String) (contextPrompt : String)
    (rs : List (List String))
    (h : (processBatch o outputLanguage texts themes contextPrompt).1 = .ok rs) :
    rs.length = texts.length := by
  unfold processBatch at h
  cases hc : o.complete (batchPromptOf outputLanguage texts themes) contextPrompt with
  | error e => exact absurd h (by simp [hc])
  | ok completion =>
    simp only [hc] at h
    have : parseBatchResults completion texts.length themes = rs := by injection h
    rw [← this]
    exact parseBatchResults_length ..

theorem getD_map_lt (f : α → β) :
    ∀ (l : List α) (j : Nat), j < l.length →
      ∀ (d1 : α) (d2 : β), (l.map f).getD j d2 = f (l.getD j d1) := by
  intro l
  induction l with
  | nil => intro j h; simp at h
  | cons a as ih =>
    intro j h d1 d2
    cases j with
    | zero => simp
    | succ j' =>
      simp only [List.map_cons, List.getD_cons_succ]
      exact ih j' (by simpa using h) d1 d2

theorem all_none_filterMap (f : α → Option β) :
    ∀ (l : List α), (∀ a ∈ l, f a = none) → l.filterMap f = [] := by
  intro l
  induction l with
  | nil => intro _; rfl
  | cons a as ih =>
    intro h
    rw [List.filterMap_cons, h a (List.mem_cons_self ..)]
    exact ih (fun a' ha' => h a' (List.mem_cons_of_mem _ ha'))

/-- Building analyses over concatenated batches splits into per-batch
builds, provided the matched-theme lists align with the batch lengths. -/
theorem buildAnalysisPairs_join (now : Nat) :
    ∀ (bsl : List (List Response)) (rssl : List (List (List String))),
      bsl.length = rssl.length →
      (∀ j, j < bsl.length → (rssl.getD j []).length = (bsl.getD j []).length) →
      buildAnalysisPairs now bsl.join rssl.join
        = ((List.range bsl.length).map (fun j =>
            buildAnalysisPairs now (bsl.getD j []) (rssl.getD j []))).join := by
  intro bsl
  induction bsl with
  | nil =>
    intro rssl hlen _
    have : rssl = [] := List.length_eq_zero.1 (by simpa using hlen.symm)
    subst this
    simp [buildAnalysisPairs]
  | cons b bs ih =>
    intro rssl hlen hpt
    match rssl with
    | [] => simp at hlen
    | rs :: rss =>
      simp only [List.join_cons]
      rw [buildAnalysisPairs_append now b rs (bs.join) (rss.join)
        (by have := hpt 0 (by simp); simpa using this)]
      rw [ih rss (by simpa using hlen)
        (fun j hj => by have := hpt (j + 1) (by simpa using hj); simpa using this)]
      rw [List.length_cons, List.range_succ_eq_map, List.map_cons, List.map_map]
      have hmap : List.map ((fun j => buildAnalysisPairs now ((b :: bs).getD j [])
            ((rs :: rss).getD j [])) ∘ Nat.succ) (List.range bs.length)
          = List.map (fun j => buildAnalysisPairs now (bs.getD j []) (rss.getD j []))
            (List.range bs.length) := by
        apply List.map_congr_left
        intro j hj
        simp [Function.comp]
      rw [hmap]
      simp

/-- The per-batch worker facts in the all-success case: worker `j`
publishes exactly the analyses built from the j-th chunk's parse results,
no error, and the length of each parse result matches its batch. -/
theorem worker_facts_of_chunk_ok (o : Oracle) (outputLanguage : String)
    (themes : List String) (contextPrompt : String) (now : Nat)
    (batches : List (List Response)) (rss : List (List (List String)))
    (hne : ∀ c ∈ batches, c ≠ [])
    (hok : ∀ j, j < (batches.map (List.map Response.Text)).length →
      (processBatch o outputLanguage
        ((batches.map (List.map Response.Text)).getD j []) themes
        contextPrompt).1 = .ok (rss.getD j []))
    (j : Nat) (hj : j < batches.length) :
    workerPairsOf o outputLanguage themes contextPrompt now batches j
        = buildAnalysisPairs now (batches.getD j []) (rss.getD j [])
    ∧ workerErrOf o outputLanguage themes contextPrompt now batches j = none
    ∧ (rss.getD j []).length = (batches.getD j []).length := by
  have hbne : batches.getD j [] ≠ [] := hne _ (getD_mem _ hj)
  have hokj := hok j (by rw [List.length_map]; exact hj)
  rw [getD_map_lt (List.map Response.Text) batches j hj []
    ([] : List String)] at hokj
  cases hpb : processBatch o outputLanguage
      ((batches.getD j []).map Response.Text) themes contextPrompt with
  | mk pres pev =>
    have hpres : pres = .ok (rss.getD j []) := by
      rw [hpb] at hokj
      exact hokj
    subst hpres
    have hw := workerRun_ok_char o outputLanguage themes contextPrompt now
      (batches.getD j []) j hbne (rss.getD j []) pev hpb
    refine ⟨?_, ?_, ?_⟩
    · unfold workerPairsOf workerOutcome
      rw [hw]
    · unfold workerErrOf workerOutcome
      rw [hw]
    · have := processBatch_ok_length o outputLanguage
        ((batches.getD j []).map Response.Text) themes contextPrompt
        (rss.getD j []) (by rw [hpb])
      simpa using this

/-- C3: with the batch-matching transport a fixed deterministic function of
its inputs, serial and parallel matching dispatch produce maps assigning
the same themes (indeed the same analyses) to every response id, for every
worker completion schedule — the dispatch mode never affects the final
assignment. -/
theorem c3_serial_parallel_equivalent (o : Oracle) (outputLanguage : String)
    (responses : List Response) (themes : List String) (contextPrompt : String)
    (previousAnalyses : List (String × ResponseAnalysis))
    (batchSize numWorkers : Int) (now : Nat) (sched : List Nat)
    (hnd : (responses.map Response.ID).Nodup)
    (hsched : sched.Perm (List.range
      (matchBatches responses previousAnalyses batchSize).length)) :
    ∀ m₁ ev₁, MatchResponsesToThemes o outputLanguage responses themes
        contextPrompt previousAnalyses batchSize now = (.ok m₁, ev₁) →
      ∃ m₂ ev₂, MatchResponsesToThemesParallel o outputLanguage responses themes
          contextPrompt previousAnalyses batchSize numWorkers now sched
          = (.ok m₂, ev₂)
        ∧ ∀ id, mlookup id m₁ = mlookup id m₂ := by
  intro m₁ ev₁ hrun
  rw [matchSerial_eq] at hrun
  by_cases hde : (dirtyResponses responses previousAnalyses).isEmpty
  · rw [if_pos hde] at hrun
    simp only [Prod.mk.injEq] at hrun
    have hm1 : mergePairs (reusedPairs responses previousAnalyses) [] = m₁ := by
      injection hrun.1
    refine ⟨mergePairs (reusedPairs responses previousAnalyses) [], [], ?_, ?_⟩
    · rw [matchParallel_eq, if_pos hde]
    · intro id; rw [← hm1]
  · rw [if_neg hde] at hrun
    have hdne : dirtyResponses responses previousAnalyses ≠ [] := by
      intro habs; rw [habs] at hde; simp at hde
    have hdpos : 0 < (dirtyResponses responses previousAnalyses).length :=
      List.length_pos.2 hdne
    have hBn : ¬ (defaultBatchSize batchSize
        (dirtyResponses responses previousAnalyses).length ≤ 0) := by
      have := defaultBatchSize_pos batchSize _ hdpos
      omega
    cases hcb : clientMatchBatch o outputLanguage
        ((dirtyResponses responses previousAnalyses).map Response.Text) themes
        contextPrompt
        (defaultBatchSize batchSize (dirtyResponses responses previousAnalyses).length)
        with
    | mk res1 ev1 =>
      rw [hcb] at hrun
      cases res1 with
      | error e => simp at hrun
      | ok matched =>
        simp only [Prod.mk.injEq] at hrun
        have hm1 : mergePairs
            (buildAnalysisPairs now (dirtyResponses responses previousAnalyses)
              matched)
            (mergePairs (reusedPairs responses previousAnalyses) []) = m₁ := by
          injection hrun.1
        rw [clientMatchBatch_eq, if_neg hBn, chunks_map] at hcb
        obtain ⟨rss, hrsslen, hjoin, hok, _⟩ :=
          runChunksAux_ok_char o outputLanguage themes contextPrompt _ _ _ _ hcb
        rw [show chunks (dirtyResponses responses previousAnalyses)
            (defaultBatchSize batchSize
              (dirtyResponses responses previousAnalyses).length).toNat
          = matchBatches responses previousAnalyses batchSize from rfl]
          at hrsslen hok
        rw [List.length_map] at hrsslen
        have hfacts := worker_facts_of_chunk_ok o outputLanguage themes
          contextPrompt now (matchBatches responses previousAnalyses batchSize) rss
          (chunks_ne_nil _ _) hok
        -- no worker fails, so the parallel run succeeds
        have herrs : sched.filterMap (workerErrOf o outputLanguage themes
            contextPrompt now (matchBatches responses previousAnalyses batchSize))
            = [] := by
          apply all_none_filterMap
          intro j hj
          exact (hfacts j (List.mem_range.1 (hsched.mem_iff.1 hj))).2.1
        have hpar := matchParallel_eq o outputLanguage responses themes
          contextPrompt previousAnalyses batchSize numWorkers now sched
        rw [if_neg hde] at hpar
        simp only [] at hpar
        rw [herrs] at hpar
        simp only [List.isEmpty_nil, if_pos] at hpar
        refine ⟨_, _, hpar, ?_⟩
        -- map equality
        intro id
        rw [← hm1]
        -- rewrite the serial pairs as a join over per-batch builds
        have hdirtyjoin : dirtyResponses responses previousAnalyses
            = (matchBatches responses previousAnalyses batchSize).join :=
          (chunks_join _ _).symm
        have hserial : buildAnalysisPairs now
            (dirtyResponses responses previousAnalyses) matched
            = ((List.range (matchBatches responses previousAnalyses
                batchSize).length).map
              (workerPairsOf o outputLanguage themes contextPrompt now
                (matchBatches responses previousAnalyses batchSize))).join := by
          rw [hjoin, hdirtyjoin]
          rw [buildAnalysisPairs_join now _ _ hrsslen.symm
            (fun j hj => (hfacts j hj).2.2)]
          congr 1
          apply List.map_congr_left
          intro j hj
          exact ((hfacts j (List.mem_range.1 hj)).1).symm
        -- the two merged pair lists are permutations with distinct keys
        have hkeysnd : ((buildAnalysisPairs now
            (dirtyResponses responses previousAnalyses) matched).map
            Prod.fst).Nodup := by
          rw [buildAnalysisPairs_keys]
          apply hnd.sublist
          exact List.Sublist.map _ (List.filter_sublist _)
        have hperm : (buildAnalysisPairs now
            (dirtyResponses responses previousAnalyses) matched).Perm
            ((sched.map (workerPairsOf o outputLanguage themes contextPrompt now
              (matchBatches responses previousAnalyses batchSize))).join) := by
          rw [hserial]
          exact (List.Perm.flatten (hsched.map _)).symm
        unfold mergePairs
        rw [mlookup_foldl_minsert, mlookup_foldl_minsert]
        have hlook : mlookup id (buildAnalysisPairs now
            (dirtyResponses responses previousAnalyses) matched).reverse
            = mlookup id ((sched.map (workerPairsOf o outputLanguage themes
                contextPrompt now
                (matchBatches responses previousAnalyses batchSize))).join).reverse := by
          apply mlookup_perm
          · exact ((List.reverse_perm _).trans hperm).trans
              (List.reverse_perm _).symm
          · exact (((List.reverse_perm _).map Prod.fst).nodup_iff).2 hkeysnd
        rw [hlook, mlookup_foldl_minsert, mlookup_foldl_minsert]

/-- C3 witness: two new single-response batches, reversed completion order;
the serial run's concrete result and the parallel run agree on every id. -/
theorem c3_serial_parallel_equivalent_witness :
    ∃ m₂ ev₂, MatchResponsesToThemesParallel ⟨fun _ _ => .ok "RESPONSE 1: 1"⟩ ""
        [⟨"r1", "hello", 0, "h1"⟩, ⟨"r2", "world", 1, "h2"⟩] ["t"] "ctx" []
        1 4 9 [1, 0] = (.ok m₂, ev₂)
      ∧ ∀ id, mlookup id
          [("r1", (⟨⟨"r1", "hello", 0, "h1"⟩, ["t"], 9⟩ : ResponseAnalysis)),
           ("r2", (⟨⟨"r2", "world", 1, "h2"⟩, ["t"], 9⟩ : ResponseAnalysis))]
          = mlookup id m₂ :=
  c3_serial_parallel_equivalent ⟨fun _ _ => .ok "RESPONSE 1: 1"⟩ ""
    [⟨"r1", "hello", 0, "h1"⟩, ⟨"r2", "world", 1, "h2"⟩] ["t"] "ctx" [] 1 4 9 [1, 0]
    (by decide) (by decide)
    [("r1", ⟨⟨"r1", "hello", 0, "h1"⟩, ["t"], 9⟩),
     ("r2", ⟨⟨"r2", "world", 1, "h2"⟩, ["t"], 9⟩)]
    [CallEvent.matchBatchCall ["hello"], CallEvent.matchBatchCall ["world"]]
    (by decide)

/-! ### C1: summary reuse on unchanged runs -/

theorem clientIdentifyThemes_events (o : Oracle) (outputLanguage : String)
    (responses : List String) (contextPrompt : String) :
    (clientIdentifyThemes o outputLanguage responses contextPrompt).2
      = [CallEvent.identifyThemesCall
          (identifyThemesPromptOf outputLanguage responses)] := by
  unfold clientIdentifyThemes
  cases h : o.complete (identifyThemesPromptOf outputLanguage responses)
    contextPrompt <;> simp [h]

theorem analyzerIdentifyThemes_events (o : Oracle) (outputLanguage : String)
    (responses : List Response) (contextPrompt : String) :
    (analyzerIdentifyThemes o outputLanguage responses contextPrompt).2
      = [CallEvent.identifyThemesCall
          (identifyThemesPromptOf outputLanguage (responses.map Response.Text))] := by
  unfold analyzerIdentifyThemes
  have h := clientIdentifyThemes_events o outputLanguage
    (responses.map Response.Text) contextPrompt
  cases hc : clientIdentifyThemes o outputLanguage (responses.map Response.Text)
      contextPrompt with
  | mk res ev =>
    rw [hc] at h
    simp only [hc]
    cases res <;> simpa using h

theorem themesStageF_events_not_summary (o : Oracle) (outputLanguage : String)
    (responses : List Response) (cfg : Config) :
    ∀ e ∈ (themesStageF o outputLanguage responses cfg).2,
      e.isSummaryStage = false := by
  unfold themesStageF
  by_cases h : cfg.Themes.length = 0
  · simp only [h, if_pos]
    have hev := analyzerIdentifyThemes_events o outputLanguage responses
      cfg.ContextPrompt
    cases hc : analyzerIdentifyThemes o outputLanguage responses cfg.ContextPrompt with
    | mk res ev =>
      rw [hc] at hev
      cases res with
      | error e =>
        simp only []
        intro x hx
        have hev2 : ev = [CallEvent.identifyThemesCall
            (identifyThemesPromptOf outputLanguage
              (responses.map Response.Text))] := hev
        rw [hev2, List.mem_singleton] at hx
        subst hx
        rfl
      | ok themes =>
        simp only []
        intro x hx
        have hev2 : ev = [CallEvent.identifyThemesCall
            (identifyThemesPromptOf outputLanguage
              (responses.map Response.Text))] := hev
        rw [hev2, List.mem_singleton] at hx
        subst hx
        rfl
  · simp [h]

theorem serial_events_shape (o : Oracle) (outputLanguage : String)
    (responses : List Response) (themes : List String) (contextPrompt : String)
    (previousAnalyses : List (String × ResponseAnalysis)) (batchSize : Int)
    (now : Nat) (res : Except String (List (String × ResponseAnalysis)))
    (ev : List CallEvent)
    (h : MatchResponsesToThemes o outputLanguage responses themes contextPrompt
      previousAnalyses batchSize now = (res, ev)) :
    ∀ e ∈ ev, ∃ ts, e = CallEvent.matchBatchCall ts := by
  rw [matchSerial_eq] at h
  by_cases hde : (dirtyResponses responses previousAnalyses).isEmpty
  · rw [if_pos hde] at h
    simp only [Prod.mk.injEq] at h
    intro e he
    rw [← h.2] at he
    simp at he
  · rw [if_neg hde] at h
    cases hcb : clientMatchBatch o outputLanguage
        ((dirtyResponses responses previousAnalyses).map Response.Text) themes
        contextPrompt
        (defaultBatchSize batchSize (dirtyResponses responses previousAnalyses).length)
        with
    | mk res1 ev1 =>
      rw [hcb] at h
      have hev : ev = ev1 := by
        cases res1 with
        | error e => simp only [Prod.mk.injEq] at h; exact h.2.symm
        | ok m => simp only [Prod.mk.injEq] at h; exact h.2.symm
      rw [clientMatchBatch_eq] at hcb
      intro e he
      rw [hev] at he
      obtain ⟨b, _, hbe⟩ := runChunksAux_events_sub o outputLanguage themes
        contextPrompt _ _ _ _ hcb e he
      exact ⟨b, hbe⟩

theorem parallel_events_shape (o : Oracle) (outputLanguage : String)
    (responses : List Response) (themes : List String) (contextPrompt : String)
    (previousAnalyses : List (String × ResponseAnalysis))
    (batchSize numWorkers : Int) (now : Nat) (sched : List Nat)
    (res : Except String (List (String × ResponseAnalysis)))
    (ev : List CallEvent)
    (h : MatchResponsesToThemesParallel o outputLanguage responses themes
      contextPrompt previousAnalyses batchSize numWorkers now sched = (res, ev)) :
    ∀ e ∈ ev, ∃ ts, e = CallEvent.matchBatchCall ts := by
  rw [matchParallel_eq] at h
  by_cases hde : (dirtyResponses responses previousAnalyses).isEmpty
  · rw [if_pos hde] at h
    simp only [Prod.mk.injEq] at h
    intro e he
    rw [← h.2] at he
    simp at he
  · rw [if_neg hde] at h
    simp only [] at h
    have hev : ev = (sched.map (workerEventsOf o outputLanguage themes contextPrompt
        now (matchBatches responses previousAnalyses batchSize))).join := by
      by_cases herr : (sched.filterMap (workerErrOf o outputLanguage themes
          contextPrompt now (matchBatches responses previousAnalyses batchSize))).isEmpty
      · rw [if_pos herr] at h
        simp only [Prod.mk.injEq] at h
        exact h.2.symm
      · rw [if_neg herr] at h
        simp only [Prod.mk.injEq] at h
        exact h.2.symm
    intro e he
    rw [hev, List.mem_join] at he
    obtain ⟨evl, hevl, hemem⟩ := he
    rw [List.mem_map] at hevl
    obtain ⟨j, _, hjev⟩ := hevl
    by_cases hb : ((matchBatches responses previousAnalyses batchSize).getD j []) = []
    · unfold workerEventsOf workerOutcome at hjev
      rw [hb, workerRun_nil] at hjev
      rw [← hjev] at hemem
      simp at hemem
    · unfold workerEventsOf workerOutcome at hjev
      rw [workerRun_events o outputLanguage themes contextPrompt now _ j hb] at hjev
      rw [← hjev, List.mem_singleton] at hemem
      exact ⟨_, hemem⟩

theorem matchStageF_events_not_summary (a : AnalyzerCfg) (o : Oracle)
    (outputLanguage : String) (responses : List Response) (themes : List String)
    (contextPrompt : String) (previousAnalyses : List (String × ResponseAnalysis))
    (now : Nat) (sched : List Nat) :
    ∀ e ∈ (matchStageF a o outputLanguage responses themes contextPrompt
        previousAnalyses now sched).2,
      e.isSummaryStage = false := by
  unfold matchStageF
  by_cases hp : a.useParallel
  · simp only [hp, if_pos]
    cases hm : MatchResponsesToThemesParallel o outputLanguage responses themes
        contextPrompt previousAnalyses a.batchSize a.parallelWorkers now sched with
    | mk res ev =>
      have hshape := parallel_events_shape o outputLanguage responses themes
        contextPrompt previousAnalyses a.batchSize a.parallelWorkers now sched
        res ev hm
      cases res with
      | error e =>
        intro x hx
        obtain ⟨ts, hts⟩ := hshape x hx
        subst hts; rfl
      | ok m =>
        intro x hx
        obtain ⟨ts, hts⟩ := hshape x hx
        subst hts; rfl
  · simp only [hp, if_neg, if_false]
    cases hm : MatchResponsesToThemes o outputLanguage responses themes
        contextPrompt previousAnalyses a.batchSize now with
    | mk res ev =>
      have hshape := serial_events_shape o outputLanguage responses themes
        contextPrompt previousAnalyses a.batchSize now res ev hm
      cases res with
      | error e =>
        intro x hx
        obtain ⟨ts, hts⟩ := hshape x hx
        subst hts; rfl
      | ok m =>
        intro x hx
        obtain ⟨ts, hts⟩ := hshape x hx
        subst hts; rfl

/-- C1: when the newly computed response analyses are unchanged from the
prior result (equal count and an equal content hash for every id) and the
prior result carries at least one theme summary, `AnalyzeResponses` copies
the prior theme summaries, global summary and legacy `Summary` into the new
result untouched, and the run issues no summary-stage request (no
theme-summary and no global-summary call). -/
theorem c1_summary_reuse (a : AnalyzerCfg) (o : Oracle) (outputLanguage : String)
    (responses : List Response) (cfg : Config) (prev : AnalysisResult)
    (columnTitle : String) (now : Nat) (sched : List Nat)
    (res : AnalysisResult) (events : List CallEvent)
    (hrun : AnalyzeResponses a o outputLanguage responses cfg (some prev)
      columnTitle now sched = (.ok res, events))
    (hcount : prev.ResponseAnalyses.length = res.ResponseAnalyses.length)
    (hhash : ∀ p ∈ res.ResponseAnalyses, ∃ q,
      mlookup p.1 prev.ResponseAnalyses = some q ∧
        q.Response.Hash = p.2.Response.Hash)
    (hts : prev.ThemeSummaries.length > 0) :
    res.ThemeSummaries = prev.ThemeSummaries
    ∧ res.GlobalSummary = prev.GlobalSummary
    ∧ res.Summary = prev.Summary
    ∧ ∀ e ∈ events, e.isSummaryStage = false := by
  unfold AnalyzeResponses at hrun
  have hthev := themesStageF_events_not_summary o outputLanguage responses cfg
  cases hth : themesStageF o outputLanguage responses cfg with
  | mk thRes evThemes =>
    rw [hth] at hrun hthev
    cases thRes with
    | error e => simp at hrun
    | ok themes =>
      simp only [] at hrun
      have hmsev := matchStageF_events_not_summary a o outputLanguage responses
        themes cfg.ContextPrompt prev.ResponseAnalyses now sched
      cases hms : matchStageF a o outputLanguage responses themes cfg.ContextPrompt
          prev.ResponseAnalyses now sched with
      | mk msRes evMatch =>
        rw [hms] at hrun hmsev
        cases msRes with
        | error e => simp at hrun
        | ok matched =>
          simp only [] at hrun
          -- whatever branch was taken, the result's analyses are `matched`,
          -- so the change check must come out false
          have hreuse : (!responsesChangedB prev.ResponseAnalyses matched
              && (some prev).isSome
              && decide (prev.ThemeSummaries.length > 0)) = true := by
            have hra : res.ResponseAnalyses = matched := by
              by_cases hb : (!responsesChangedB prev.ResponseAnalyses matched
                  && (some prev).isSome
                  && decide (prev.ThemeSummaries.length > 0)) = true
              · rw [if_pos hb] at hrun
                simp only [Prod.mk.injEq] at hrun
                have hrec := Except.ok.inj hrun.1
                rw [← hrec]
              · rw [if_neg hb] at hrun
                cases htss : themeSummariesStageF o outputLanguage matched
                    (BuildThemeAnalyses matched themes) themes cfg with
                | mk tsRes evTS =>
                  rw [htss] at hrun
                  cases tsRes with
                  | error e => simp at hrun
                  | ok themeSummaries =>
                    simp only [] at hrun
                    cases hgss : globalSummaryStageF o outputLanguage themes
                        themeSummaries cfg with
                    | mk gsRes evGS =>
                      rw [hgss] at hrun
                      cases gsRes with
                      | error e => simp at hrun
                      | ok gpair =>
                        simp only [Prod.mk.injEq] at hrun
                        have hrec := Except.ok.inj hrun.1
                        rw [← hrec]
            rw [hra] at hcount hhash
            have hchanged : responsesChangedB prev.ResponseAnalyses matched
                = false := by
              unfold responsesChangedB
              rw [Bool.or_eq_false_iff]
              constructor
              · rw [decide_eq_false_iff_not]
                intro hne
                exact hne hcount
              · rw [List.any_eq_false]
                intro p hp
                obtain ⟨q, hq, hqh⟩ := hhash p hp
                rw [hq]
                simp [hqh]
            rw [hchanged]
            simp [hts]
          rw [if_pos hreuse] at hrun
          simp only [Prod.mk.injEq] at hrun
          have hres := Except.ok.inj hrun.1
          have hevents : evThemes ++ evMatch = events := hrun.2
          refine ⟨?_, ?_, ?_, ?_⟩
          · rw [← hres]
          · rw [← hres]
          · rw [← hres]
          · intro e he
            rw [← hevents] at he
            rcases List.mem_append.1 he with he | he
            · exact hthev e he
            · exact hmsev e he

/-- C1 witness: one unchanged response, a prior result with one theme
summary, a transport that would fail if contacted: the summaries are copied
forward and the run issues no request at all. -/
theorem c1_summary_reuse_witness :
    ({ Themes := ["t"],
       ResponseAnalyses := [("r1", ⟨⟨"r1", "hello", 0, "h1"⟩, ["t"], 5⟩)],
       ThemeAnalyses := [("t", ⟨"t", ["r1"]⟩)],
       ThemeSummaries := [("t", ⟨"sum", ["i"]⟩)],
       Summary := "g", GlobalSummary := "g", UniqueIdeas := [],
       AnalysisTimestamp := 9, ColumnTitle := "c" } : AnalysisResult).ThemeSummaries
      = ({ Themes := ["t"],
           ResponseAnalyses := [("r1", ⟨⟨"r1", "hello", 0, "h1"⟩, ["t"], 5⟩)],
           ThemeAnalyses := [],
           ThemeSummaries := [("t", ⟨"sum", ["i"]⟩)],
           Summary := "g", GlobalSummary := "g", UniqueIdeas := [],
           AnalysisTimestamp := 1, ColumnTitle := "c" } : AnalysisResult).ThemeSummaries
    ∧ ({ Themes := ["t"],
         ResponseAnalyses := [("r1", ⟨⟨"r1", "hello", 0, "h1"⟩, ["t"], 5⟩)],
         ThemeAnalyses := [("t", ⟨"t", ["r1"]⟩)],
         ThemeSummaries := [("t", ⟨"sum", ["i"]⟩)],
         Summary := "g", GlobalSummary := "g", UniqueIdeas := [],
         AnalysisTimestamp := 9, ColumnTitle := "c" } : AnalysisResult).GlobalSummary
      = "g"
    ∧ ({ Themes := ["t"],
         ResponseAnalyses := [("r1", ⟨⟨"r1", "hello", 0, "h1"⟩, ["t"], 5⟩)],
         ThemeAnalyses := [("t", ⟨"t", ["r1"]⟩)],
         ThemeSummaries := [("t", ⟨"sum", ["i"]⟩)],
         Summary := "g", GlobalSummary := "g", UniqueIdeas := [],
         AnalysisTimestamp := 9, ColumnTitle := "c" } : AnalysisResult).Summary = "g"
    ∧ ∀ e ∈ ([] : List CallEvent), e.isSummaryStage = false := by
  have h := c1_summary_reuse ⟨1, 4, false⟩ ⟨fun _ _ => .error "no api"⟩ ""
    [⟨"r1", "hello", 0, "h1"⟩]
    ⟨["t"], "ctx", "tsp", "gsp", 100⟩
    { Themes := ["t"],
      ResponseAnalyses := [("r1", ⟨⟨"r1", "hello", 0, "h1"⟩, ["t"], 5⟩)],
      ThemeAnalyses := [],
      ThemeSummaries := [("t", ⟨"sum", ["i"]⟩)],
      Summary := "g", GlobalSummary := "g", UniqueIdeas := [],
      AnalysisTimestamp := 1, ColumnTitle := "c" }
    "c" 9 []
    { Themes := ["t"],
      ResponseAnalyses := [("r1", ⟨⟨"r1", "hello", 0, "h1"⟩, ["t"], 5⟩)],
      ThemeAnalyses := [("t", ⟨"t", ["r1"]⟩)],
      ThemeSummaries := [("t", ⟨"sum", ["i"]⟩)],
      Summary := "g", GlobalSummary := "g", UniqueIdeas := [],
      AnalysisTimestamp := 9, ColumnTitle := "c" }
    [] (by decide) (by decide) (by decide) (by decide)
  exact h
